import Mathlib

/-!
Shallow embedding of the `circuit-json-to-dsn` converter pipeline
(`src/lib/CircuitJsonToDsnConverter.ts`, `src/lib/types.ts` and the five
stages under `src/lib/stages/`), together with theorems checking the
natural-language specification against the code.

Conventions used throughout the embedding:
* JavaScript numbers are modelled as `ℚ` (the code only performs exact
  arithmetic: additions, subtractions, multiplications by 1000 and
  `Math.round`).
* `Math.round x` is `⌊x + 1/2⌋` (JavaScript rounds half-up), see `jsRound`.
* JavaScript strings are Lean `String`s; template-literal interpolation of an
  integer is decimal printing, see `natStr` / `intStr`.
* `Map` / `Set` objects preserve insertion order; `Map.set` overwrites the
  value of an existing key in place, otherwise appends.  They are modelled as
  association lists, see `jsMapSet` / `jsSetAdd`.
* Exceptions are modelled with `Except String`.
-/

/-- Pieces of JavaScript semantics: `Math.round x` is `⌊x + 0.5⌋`. -/
def jsRound (q : ℚ) : ℤ := ⌊q + 1/2⌋

theorem jsRound_eq_round (q : ℚ) : jsRound q = round q := (round_eq q).symm

@[simp] theorem jsRound_intCast (n : ℤ) : jsRound (n : ℚ) = n := by
  rw [jsRound_eq_round]; exact round_intCast n

@[simp] theorem jsRound_zero : jsRound 0 = 0 := by
  simpa using jsRound_intCast 0

/-- Decimal digit as a character, `digitChar10 3 = '3'`. -/
def digitChar10 (d : ℕ) : Char := Char.ofNat (48 + d)

theorem digitChar10_toNat {d : ℕ} (h : d < 10) :
    (digitChar10 d).toNat = 48 + d := by
  interval_cases d <;> rfl

/-- Big-endian decimal digits of `n`, using explicit fuel so that the
definition is structurally recursive (and hence kernel-reducible). -/
def natStrAux : ℕ → ℕ → List Char
  | 0, _ => []
  | fuel + 1, n => if n = 0 then [] else natStrAux fuel (n / 10) ++ [digitChar10 (n % 10)]

theorem natStrAux_eq_digits (n : ℕ) : ∀ fuel, n < fuel →
    natStrAux fuel n = ((Nat.digits 10 n).map digitChar10).reverse := by
  induction n using Nat.strong_induction_on with
  | _ n ih =>
    intro fuel hf
    match fuel, hf with
    | fuel + 1, hf =>
      by_cases hn : n = 0
      · subst hn; simp [natStrAux]
      · have hdiv : n / 10 < n := Nat.div_lt_self (Nat.pos_of_ne_zero hn) (by norm_num)
        have hdivf : n / 10 < fuel := lt_of_lt_of_le hdiv (Nat.lt_succ_iff.mp hf)
        rw [natStrAux, if_neg hn, ih (n / 10) hdiv fuel hdivf,
          Nat.digits_def' (by norm_num : 1 < 10) (Nat.pos_of_ne_zero hn)]
        simp

/-- Decimal rendering of a natural number, as JavaScript would print it. -/
def natStr (n : ℕ) : String := if n = 0 then "0" else ⟨natStrAux (n + 1) n⟩

theorem natStr_data {n : ℕ} (hn : n ≠ 0) :
    (natStr n).data = ((Nat.digits 10 n).map digitChar10).reverse := by
  rw [natStr, if_neg hn]
  exact natStrAux_eq_digits n (n + 1) (Nat.lt_succ_self n)

theorem digits_map_decode {l : List ℕ} (hl : ∀ d ∈ l, d < 10) :
    (l.map digitChar10).map (fun c => c.toNat - 48) = l := by
  rw [List.map_map]
  induction l with
  | nil => rfl
  | cons d rest ih =>
    have hd : d < 10 := hl d (List.mem_cons_self d rest)
    have hrest := ih (fun x hx => hl x (List.mem_cons_of_mem d hx))
    simp only [List.map_cons, Function.comp, digitChar10_toNat hd, hrest]
    congr 1
    omega

theorem natStr_decode {n : ℕ} (hn : n ≠ 0) :
    ((natStr n).data.reverse.map (fun c => c.toNat - 48)) = Nat.digits 10 n := by
  rw [natStr_data hn, List.reverse_reverse]
  exact digits_map_decode (fun d hd => Nat.digits_lt_base (by norm_num) hd)

theorem natStr_eq_zero_str {n : ℕ} (h : natStr n = "0") : n = 0 := by
  by_contra hn
  have hdec := natStr_decode hn
  rw [h] at hdec
  have : Nat.digits 10 n = [0] := by
    rw [← hdec]; rfl
  have := congrArg (Nat.ofDigits 10) this
  rw [Nat.ofDigits_digits] at this
  simp [Nat.ofDigits] at this
  exact hn this

theorem natStr_injective : Function.Injective natStr := by
  intro m n h
  by_cases hm : m = 0 <;> by_cases hn : n = 0
  · omega
  · subst hm
    exact absurd (natStr_eq_zero_str h.symm) hn
  · subst hn
    exact absurd (natStr_eq_zero_str h) hm
  · have hdec : Nat.digits 10 m = Nat.digits 10 n := by
      rw [← natStr_decode hm, ← natStr_decode hn, h]
    calc m = Nat.ofDigits 10 (Nat.digits 10 m) := (Nat.ofDigits_digits 10 m).symm
      _ = Nat.ofDigits 10 (Nat.digits 10 n) := by rw [hdec]
      _ = n := Nat.ofDigits_digits 10 n

theorem natStr_chars {n : ℕ} {c : Char} (hc : c ∈ (natStr n).data) :
    48 ≤ c.toNat ∧ c.toNat ≤ 57 := by
  by_cases hn : n = 0
  · subst hn
    have : c = '0' := by simpa [natStr] using hc
    subst this; decide
  · rw [natStr_data hn] at hc
    rw [List.mem_reverse, List.mem_map] at hc
    obtain ⟨d, hd, hdc⟩ := hc
    have hlt : d < 10 := Nat.digits_lt_base (by norm_num) hd
    subst hdc
    rw [digitChar10_toNat hlt]
    omega

theorem natStr_ne_nil (n : ℕ) : (natStr n).data ≠ [] := by
  by_cases hn : n = 0
  · subst hn; simp [natStr]
  · rw [natStr_data hn]
    simp [Nat.digits_ne_nil_iff_ne_zero, hn]

/-- Decimal rendering of an integer, as JavaScript would print it. -/
def intStr (i : ℤ) : String := if i < 0 then "-" ++ natStr i.natAbs else natStr i.natAbs

theorem intStr_chars {i : ℤ} {c : Char} (hc : c ∈ (intStr i).data) :
    c.toNat = 45 ∨ (48 ≤ c.toNat ∧ c.toNat ≤ 57) := by
  rw [intStr] at hc
  by_cases hi : i < 0
  · rw [if_pos hi, String.data_append] at hc
    rcases List.mem_append.mp hc with hmem | hmem
    · left
      have : c = '-' := by simpa using hmem
      subst this; rfl
    · right; exact natStr_chars hmem
  · rw [if_neg hi] at hc
    right; exact natStr_chars hc

theorem intStr_ne_nil (i : ℤ) : (intStr i).data ≠ [] := by
  rw [intStr]
  by_cases hi : i < 0
  · rw [if_pos hi, String.data_append]
    simp
  · rw [if_neg hi]; exact natStr_ne_nil _

theorem intStr_injective : Function.Injective intStr := by
  intro a b h
  rw [intStr, intStr] at h
  by_cases ha : a < 0 <;> by_cases hb : b < 0
  · rw [if_pos ha, if_pos hb] at h
    have hdata := congrArg String.data h
    rw [String.data_append, String.data_append] at hdata
    have : (natStr a.natAbs).data = (natStr b.natAbs).data := by
      have : ('-' : Char) :: (natStr a.natAbs).data = '-' :: (natStr b.natAbs).data := hdata
      exact List.cons_injective this
    have habs : a.natAbs = b.natAbs := natStr_injective (String.ext this)
    omega
  · exfalso
    rw [if_pos ha, if_neg hb] at h
    have hdata := congrArg String.data h
    rw [String.data_append] at hdata
    have hmem : ('-' : Char) ∈ (natStr b.natAbs).data := by
      rw [← hdata]; simp
    have hch := natStr_chars hmem
    rw [show ('-' : Char).toNat = 45 from rfl] at hch
    omega
  · exfalso
    rw [if_neg ha, if_pos hb] at h
    have hdata := congrArg String.data h
    rw [String.data_append] at hdata
    have hmem : ('-' : Char) ∈ (natStr a.natAbs).data := by
      rw [hdata]; simp
    have hch := natStr_chars hmem
    rw [show ('-' : Char).toNat = 45 from rfl] at hch
    omega
  · rw [if_neg ha, if_neg hb] at h
    have habs : a.natAbs = b.natAbs := natStr_injective h
    omega

/-- Splitting a character list at a separator character is unambiguous when
neither prefix contains the separator. -/
theorem append_sep_inj {sep : Char} :
    ∀ {a c : List Char} {b d : List Char},
      (∀ x ∈ a, x ≠ sep) → (∀ x ∈ c, x ≠ sep) →
      a ++ sep :: b = c ++ sep :: d → a = c ∧ b = d := by
  intro a
  induction a with
  | nil =>
    intro c b d _ hc h
    cases c with
    | nil => simpa using h
    | cons x xs =>
      exfalso
      have hx : x = sep := by
        have := congrArg (fun l => l.head?) h
        simpa using this.symm
      exact hc x (List.mem_cons_self x xs) hx
  | cons y ys ih =>
    intro c b d ha hc h
    cases c with
    | nil =>
      exfalso
      have hy : y = sep := by
        have := congrArg (fun l => l.head?) h
        simpa using this
      exact ha y (List.mem_cons_self y ys) hy
    | cons x xs =>
      simp only [List.cons_append, List.cons.injEq] at h
      obtain ⟨hyx, hrest⟩ := h
      have := ih (fun z hz => ha z (List.mem_cons_of_mem y hz))
        (fun z hz => hc z (List.mem_cons_of_mem x hz)) hrest
      exact ⟨by rw [hyx, this.1], this.2⟩

/-- Lexicographic comparison of character lists by code point.  This models
the default JavaScript string comparison used by `Array.prototype.sort()`.
(Any total antisymmetric order yields the same sorted list, so the exact
order does not matter for signature equality.) -/
def charLeB : List Char → List Char → Bool
  | [], _ => true
  | _ :: _, [] => false
  | a :: as, b :: bs =>
    if a.toNat < b.toNat then true
    else if b.toNat < a.toNat then false
    else charLeB as bs

theorem charLeB_total : ∀ l m : List Char, charLeB l m = true ∨ charLeB m l = true := by
  intro l
  induction l with
  | nil => intro m; left; rfl
  | cons a as ih =>
    intro m
    cases m with
    | nil => right; rfl
    | cons b bs =>
      by_cases hab : a.toNat < b.toNat
      · left; simp [charLeB, hab]
      · by_cases hba : b.toNat < a.toNat
        · right; simp [charLeB, hba]
        · rcases ih bs with h | h
          · left; simpa [charLeB, hab, hba] using h
          · right; simpa [charLeB, hab, hba] using h

theorem char_toNat_inj {a b : Char} (h : a.toNat = b.toNat) : a = b := by
  apply Char.ext
  have h1 : a.val.toNat = b.val.toNat := h
  exact UInt32.toNat.inj h1

theorem charLeB_antisymm : ∀ l m : List Char,
    charLeB l m = true → charLeB m l = true → l = m := by
  intro l
  induction l with
  | nil =>
    intro m _ hml
    cases m with
    | nil => rfl
    | cons b bs => simp [charLeB] at hml
  | cons a as ih =>
    intro m hlm hml
    cases m with
    | nil => simp [charLeB] at hlm
    | cons b bs =>
      by_cases hab : a.toNat < b.toNat
      · exfalso
        have : ¬ b.toNat < a.toNat := by omega
        simp [charLeB, this, hab] at hml
      · by_cases hba : b.toNat < a.toNat
        · exfalso
          simp [charLeB, hab, hba] at hlm
        · have heq : a = b := char_toNat_inj (by omega)
          have h1 : charLeB as bs = true := by simpa [charLeB, hab, hba] using hlm
          have h2 : charLeB bs as = true := by simpa [charLeB, hab, hba] using hml
          rw [heq, ih bs h1 h2]

theorem charLeB_trans : ∀ l m k : List Char,
    charLeB l m = true → charLeB m k = true → charLeB l k = true := by
  intro l
  induction l with
  | nil => intro m k _ _; rfl
  | cons a as ih =>
    intro m k hlm hmk
    cases m with
    | nil => simp [charLeB] at hlm
    | cons b bs =>
      cases k with
      | nil => simp [charLeB] at hmk
      | cons c cs =>
        by_cases hab : a.toNat < b.toNat <;> by_cases hbc : b.toNat < c.toNat
        · simp [charLeB, show a.toNat < c.toNat by omega]
        · have hcb : ¬ c.toNat < b.toNat := by
            by_contra hcb
            simp [charLeB, hbc, hcb] at hmk
          have hbc' : b.toNat = c.toNat := by omega
          simp [charLeB, show a.toNat < c.toNat by omega]
        · have hba : ¬ b.toNat < a.toNat := by
            by_contra hba
            simp [charLeB, hab, hba] at hlm
          have hab' : a.toNat = b.toNat := by omega
          simp [charLeB, show a.toNat < c.toNat by omega]
        · have hba : ¬ b.toNat < a.toNat := by
            by_contra hba
            simp [charLeB, hab, hba] at hlm
          have hcb : ¬ c.toNat < b.toNat := by
            by_contra hcb
            simp [charLeB, hbc, hcb] at hmk
          have hab' : a.toNat = b.toNat := by omega
          have hbc' : b.toNat = c.toNat := by omega
          have h1 : charLeB as bs = true := by simpa [charLeB, hab, hba] using hlm
          have h2 : charLeB bs cs = true := by simpa [charLeB, hbc, hcb] using hmk
          simp [charLeB, show ¬ a.toNat < c.toNat by omega, show ¬ c.toNat < a.toNat by omega]
          exact ih bs cs h1 h2

/-- String comparison used when sorting signature fragments. -/
def StrLe (a b : String) : Prop := charLeB a.data b.data = true

instance : DecidableRel StrLe := fun a b => decEq (charLeB a.data b.data) true

instance : IsTotal String StrLe := ⟨fun a b => charLeB_total a.data b.data⟩

instance : IsTrans String StrLe := ⟨fun a b c => charLeB_trans a.data b.data c.data⟩

instance : IsAntisymm String StrLe :=
  ⟨fun a b h1 h2 => String.ext (charLeB_antisymm a.data b.data h1 h2)⟩

/-- JavaScript `Array.prototype.join("|")`. -/
def joinBar : List String → String
  | [] => ""
  | [s] => s
  | s :: t :: l => s ++ "|" ++ joinBar (t :: l)

/-- Strings that are non-empty and contain no `'|'` character; every
signature fragment is of this shape, which makes `joinBar` injective. -/
def BarFree (s : String) : Prop := s.data ≠ [] ∧ ∀ c ∈ s.data, c ≠ '|'

theorem bar_mem_joinBar {s : String} {l : List String} (hs : s ∈ l) (hl : l.length ≥ 2) :
    ('|' : Char) ∈ (joinBar l).data := by
  induction l with
  | nil => simp at hs
  | cons a as ih =>
    cases as with
    | nil => simp at hl
    | cons b bs =>
      rw [joinBar, String.data_append, String.data_append]
      simp

theorem joinBar_inj : ∀ {l m : List String},
    (∀ s ∈ l, BarFree s) → (∀ s ∈ m, BarFree s) →
    joinBar l = joinBar m → l = m := by
  intro l
  induction l with
  | nil =>
    intro m _ hm h
    cases m with
    | nil => rfl
    | cons b bs =>
      exfalso
      have hb := hm b (List.mem_cons_self b bs)
      cases bs with
      | nil =>
        rw [joinBar, joinBar] at h
        exact hb.1 (by rw [← h])
      | cons c cs =>
        rw [joinBar, joinBar] at h
        have := congrArg String.data h
        rw [String.data_append, String.data_append] at this
        have hne : b.data ++ "|".data ++ (joinBar (c :: cs)).data ≠ [] := by
          simp
        exact hne (by rw [← this])
  | cons a as ih =>
    intro m ha hm h
    cases m with
    | nil =>
      exfalso
      have haa := ha a (List.mem_cons_self a as)
      cases as with
      | nil =>
        rw [joinBar, joinBar] at h
        exact haa.1 (by rw [h])
      | cons c cs =>
        rw [joinBar, joinBar] at h
        have := congrArg String.data h
        rw [String.data_append, String.data_append] at this
        have hne : a.data ++ "|".data ++ (joinBar (c :: cs)).data ≠ [] := by
          simp
        exact hne (by rw [this])
    | cons b bs =>
      have haa := ha a (List.mem_cons_self a as)
      have hbb := hm b (List.mem_cons_self b bs)
      cases as with
      | nil =>
        cases bs with
        | nil =>
          rw [joinBar, joinBar] at h
          rw [h]
        | cons c cs =>
          exfalso
          rw [joinBar, joinBar] at h
          have hmem : ('|' : Char) ∈ a.data := by
            have := congrArg String.data h
            rw [this, String.data_append, String.data_append]
            simp
          exact haa.2 '|' hmem rfl
      | cons c cs =>
        cases bs with
        | nil =>
          exfalso
          rw [joinBar, joinBar] at h
          have hmem : ('|' : Char) ∈ b.data := by
            have := congrArg String.data h
            rw [← this, String.data_append, String.data_append]
            simp
          exact hbb.2 '|' hmem rfl
        | cons e es =>
          rw [joinBar, joinBar] at h
          have hdata := congrArg String.data h
          rw [String.data_append, String.data_append,
            String.data_append, String.data_append] at hdata
          have hsplit : a.data ++ '|' :: (joinBar (c :: cs)).data
              = b.data ++ '|' :: (joinBar (e :: es)).data := by
            simpa using hdata
          obtain ⟨h1, h2⟩ := append_sep_inj
            (fun x hx => haa.2 x hx) (fun x hx => hbb.2 x hx) hsplit
          have hab : a = b := String.ext h1
          have hrest : joinBar (c :: cs) = joinBar (e :: es) := String.ext h2
          have := ih (fun s hs => ha s (List.mem_cons_of_mem a hs))
            (fun s hs => hm s (List.mem_cons_of_mem b hs)) hrest
          rw [hab, this]

/-- Structured content of one fragment of a footprint signature, as computed
by `AddLibraryStage.generateFootprintSignature`: the shape class and rounded
dimensions in the exact granularity the code uses.  `sc`/`sr`/`sp`/`su` are
the SMT-pad descriptors (`c:`/`r:`/`p:`/`u:polygon`), `hc`/`ho`/`hu` the
plated-hole descriptors (`hc:`/`ho:`/`hu:circular_hole_with_rect_pad`). -/
inductive SigDesc where
  | sc (d : ℤ)
  | sr (w h : ℤ)
  | sp (w h : ℤ)
  | su
  | hc (d : ℤ)
  | ho (w h : ℤ)
  | hu
deriving DecidableEq

/-- String form of a descriptor, exactly as the code's `switch` builds it. -/
def descStr : SigDesc → String
  | .sc d => "c:" ++ intStr d
  | .sr w h => "r:" ++ intStr w ++ "x" ++ intStr h
  | .sp w h => "p:" ++ intStr w ++ "x" ++ intStr h
  | .su => "u:polygon"
  | .hc d => "hc:" ++ intStr d
  | .ho w h => "ho:" ++ intStr w ++ "x" ++ intStr h
  | .hu => "hu:circular_hole_with_rect_pad"

/-- One signature fragment: descriptor plus rounded relative position,
rendered as `<desc>@<relX>,<relY>`. -/
structure SigEntry where
  desc : SigDesc
  relX : ℤ
  relY : ℤ
deriving DecidableEq

def entryStr (e : SigEntry) : String :=
  descStr e.desc ++ "@" ++ intStr e.relX ++ "," ++ intStr e.relY

theorem descStr_sc_data (d : ℤ) :
    (descStr (.sc d)).data = 'c' :: ':' :: (intStr d).data := by
  simp [descStr, String.data_append]

theorem descStr_sr_data (w h : ℤ) :
    (descStr (.sr w h)).data = 'r' :: ':' :: ((intStr w).data ++ 'x' :: (intStr h).data) := by
  simp [descStr, String.data_append]

theorem descStr_sp_data (w h : ℤ) :
    (descStr (.sp w h)).data = 'p' :: ':' :: ((intStr w).data ++ 'x' :: (intStr h).data) := by
  simp [descStr, String.data_append]

theorem descStr_hc_data (d : ℤ) :
    (descStr (.hc d)).data = 'h' :: 'c' :: ':' :: (intStr d).data := by
  simp [descStr, String.data_append]

theorem descStr_ho_data (w h : ℤ) :
    (descStr (.ho w h)).data = 'h' :: 'o' :: ':' :: ((intStr w).data ++ 'x' :: (intStr h).data) := by
  simp [descStr, String.data_append]

/-- Characters that can appear in a descriptor: `-`, digits, `:`, `_`,
lowercase letters.  Notably this excludes the at sign (64), the comma (44)
and the bar (124), which is what makes the fragment encoding injective. -/
def GoodChar (c : Char) : Prop :=
  c.toNat = 45 ∨ (48 ≤ c.toNat ∧ c.toNat ≤ 58) ∨ c.toNat = 95 ∨
    (97 ≤ c.toNat ∧ c.toNat ≤ 122)

instance : DecidablePred GoodChar := by
  intro c
  unfold GoodChar
  infer_instance

theorem intStr_good {i : ℤ} : ∀ c ∈ (intStr i).data, GoodChar c := by
  intro c hc
  rcases intStr_chars hc with h | h
  · exact Or.inl h
  · exact Or.inr (Or.inl ⟨h.1, by omega⟩)

theorem descStr_good {d : SigDesc} : ∀ c ∈ (descStr d).data, GoodChar c := by
  cases d with
  | sc d =>
    intro c hc
    rw [descStr_sc_data] at hc
    rcases List.mem_cons.mp hc with rfl | hc
    · decide
    rcases List.mem_cons.mp hc with rfl | hc
    · decide
    exact intStr_good c hc
  | sr w h =>
    intro c hc
    rw [descStr_sr_data] at hc
    rcases List.mem_cons.mp hc with rfl | hc
    · decide
    rcases List.mem_cons.mp hc with rfl | hc
    · decide
    rcases List.mem_append.mp hc with hc | hc
    · exact intStr_good c hc
    rcases List.mem_cons.mp hc with rfl | hc
    · decide
    exact intStr_good c hc
  | sp w h =>
    intro c hc
    rw [descStr_sp_data] at hc
    rcases List.mem_cons.mp hc with rfl | hc
    · decide
    rcases List.mem_cons.mp hc with rfl | hc
    · decide
    rcases List.mem_append.mp hc with hc | hc
    · exact intStr_good c hc
    rcases List.mem_cons.mp hc with rfl | hc
    · decide
    exact intStr_good c hc
  | su => decide
  | hc d =>
    intro c hc
    rw [descStr_hc_data] at hc
    rcases List.mem_cons.mp hc with rfl | hc
    · decide
    rcases List.mem_cons.mp hc with rfl | hc
    · decide
    rcases List.mem_cons.mp hc with rfl | hc
    · decide
    exact intStr_good c hc
  | ho w h =>
    intro c hc
    rw [descStr_ho_data] at hc
    rcases List.mem_cons.mp hc with rfl | hc
    · decide
    rcases List.mem_cons.mp hc with rfl | hc
    · decide
    rcases List.mem_cons.mp hc with rfl | hc
    · decide
    rcases List.mem_append.mp hc with hc | hc
    · exact intStr_good c hc
    rcases List.mem_cons.mp hc with rfl | hc
    · decide
    exact intStr_good c hc
  | hu => decide

theorem good_ne_at {c : Char} (h : GoodChar c) : c ≠ '@' := by
  intro heq
  subst heq
  rcases h with h | h | h | h <;> revert h <;> decide

theorem good_ne_comma {c : Char} (h : GoodChar c) : c ≠ ',' := by
  intro heq
  subst heq
  rcases h with h | h | h | h <;> revert h <;> decide

theorem good_ne_bar {c : Char} (h : GoodChar c) : c ≠ '|' := by
  intro heq
  subst heq
  rcases h with h | h | h | h <;> revert h <;> decide

theorem intStr_ne_x {i : ℤ} : ∀ c ∈ (intStr i).data, c ≠ 'x' := by
  intro c hc heq
  subst heq
  rcases intStr_chars hc with h | h
  · revert h; decide
  · have : ('x' : Char).toNat = 120 := rfl
    omega

/-- Unique parse of the `<w>x<h>` dimension block. -/
theorem dims_inj {w1 h1 w2 h2 : ℤ}
    (h : (intStr w1).data ++ 'x' :: (intStr h1).data
      = (intStr w2).data ++ 'x' :: (intStr h2).data) : w1 = w2 ∧ h1 = h2 := by
  obtain ⟨hw, hh⟩ := append_sep_inj intStr_ne_x intStr_ne_x h
  exact ⟨intStr_injective (String.ext hw), intStr_injective (String.ext hh)⟩

theorem descStr_su_data :
    (descStr .su).data = ['u', ':', 'p', 'o', 'l', 'y', 'g', 'o', 'n'] := rfl

theorem descStr_hu_data :
    (descStr .hu).data = ['h', 'u', ':', 'c', 'i', 'r', 'c', 'u', 'l', 'a', 'r',
      '_', 'h', 'o', 'l', 'e', '_', 'w', 'i', 't', 'h', '_', 'r', 'e', 'c', 't',
      '_', 'p', 'a', 'd'] := rfl

theorem descStr_injective : Function.Injective descStr := by
  intro d1 d2 h
  have hd := congrArg String.data h
  cases d1 <;> cases d2 <;>
    simp only [descStr_sc_data, descStr_sr_data, descStr_sp_data, descStr_su_data,
      descStr_hc_data, descStr_ho_data, descStr_hu_data] at hd <;>
    first
    | rfl
    | (exfalso; simp at hd; done)
    | skip
  case sc.sc d1 d2 =>
    have h2 := List.cons_injective (List.cons_injective hd)
    exact congrArg SigDesc.sc (intStr_injective (String.ext h2))
  case sr.sr w1 h1 w2 h2 =>
    have h2 := List.cons_injective (List.cons_injective hd)
    obtain ⟨hw, hh⟩ := dims_inj h2
    rw [hw, hh]
  case sp.sp w1 h1 w2 h2 =>
    have h2 := List.cons_injective (List.cons_injective hd)
    obtain ⟨hw, hh⟩ := dims_inj h2
    rw [hw, hh]
  case hc.hc d1 d2 =>
    have h2 := List.cons_injective (List.cons_injective (List.cons_injective hd))
    exact congrArg SigDesc.hc (intStr_injective (String.ext h2))
  case ho.ho w1 h1 w2 h2 =>
    have h2 := List.cons_injective (List.cons_injective (List.cons_injective hd))
    obtain ⟨hw, hh⟩ := dims_inj h2
    rw [hw, hh]

theorem entryStr_data (e : SigEntry) :
    (entryStr e).data = (descStr e.desc).data
      ++ '@' :: ((intStr e.relX).data ++ ',' :: (intStr e.relY).data) := by
  simp [entryStr, String.data_append]

theorem entryStr_injective : Function.Injective entryStr := by
  intro e1 e2 h
  have hd := congrArg String.data h
  rw [entryStr_data, entryStr_data] at hd
  obtain ⟨hdesc, hrest⟩ := append_sep_inj
    (fun c hc => good_ne_at (descStr_good c hc))
    (fun c hc => good_ne_at (descStr_good c hc)) hd
  obtain ⟨hx, hy⟩ := append_sep_inj
    (fun c hc => good_ne_comma (intStr_good c hc))
    (fun c hc => good_ne_comma (intStr_good c hc)) hrest
  obtain ⟨d1, x1, y1⟩ := e1
  obtain ⟨d2, x2, y2⟩ := e2
  simp only at hdesc hx hy
  have : d1 = d2 := descStr_injective (String.ext hdesc)
  have : x1 = x2 := intStr_injective (String.ext hx)
  have : y1 = y2 := intStr_injective (String.ext hy)
  simp_all

theorem entryStr_barFree (e : SigEntry) : BarFree (entryStr e) := by
  constructor
  · rw [entryStr_data]
    cases hdesc : (descStr e.desc).data <;> simp
  · intro c hc
    rw [entryStr_data] at hc
    rcases List.mem_append.mp hc with hc | hc
    · exact good_ne_bar (descStr_good c hc)
    rcases List.mem_cons.mp hc with rfl | hc
    · decide
    rcases List.mem_append.mp hc with hc | hc
    · exact good_ne_bar (intStr_good c hc)
    rcases List.mem_cons.mp hc with rfl | hc
    · decide
    · exact good_ne_bar (intStr_good c hc)

/-- The signature body: sort the fragments (JavaScript `padInfos.sort()`) and
join them with `"|"` (JavaScript `padInfos.join("|")`).  `Array.sort` with
the default comparator is some stable sort under `StrLe`; since `StrLe` is a
total, transitive, antisymmetric order, every sort produces this exact list,
so `List.insertionSort` is a faithful model. -/
def sortAndJoin (padInfos : List String) : String :=
  joinBar (List.insertionSort StrLe padInfos)

/-- Two fragment lists produce the same sorted-joined signature string iff
they are permutations of each other, provided the fragments are non-empty
and bar-free (which all `entryStr` images are). -/
theorem sortAndJoin_eq_iff_perm {l m : List String}
    (hl : ∀ s ∈ l, BarFree s) (hm : ∀ s ∈ m, BarFree s) :
    sortAndJoin l = sortAndJoin m ↔ l.Perm m := by
  constructor
  · intro h
    have hsorted := joinBar_inj
      (fun s hs => hl s ((List.perm_insertionSort StrLe l).mem_iff.mp hs))
      (fun s hs => hm s ((List.perm_insertionSort StrLe m).mem_iff.mp hs)) h
    calc l.Perm (List.insertionSort StrLe l) := (List.perm_insertionSort StrLe l).symm
      _ = List.insertionSort StrLe m := hsorted
      _ |>.Perm m := List.perm_insertionSort StrLe m
  · intro h
    have hperm : (List.insertionSort StrLe l).Perm (List.insertionSort StrLe m) :=
      ((List.perm_insertionSort StrLe l).trans h).trans
        (List.perm_insertionSort StrLe m).symm
    have heq : List.insertionSort StrLe l = List.insertionSort StrLe m :=
      List.eq_of_perm_of_sorted hperm
        (List.sorted_insertionSort StrLe l) (List.sorted_insertionSort StrLe m)
    rw [sortAndJoin, sortAndJoin, heq]

/-! Data model: the circuit-json records consumed by the converter, with the
fields the converter reads.  Optional fields of the schema are `Option`s. -/

structure Point where
  x : ℚ
  y : ℚ
deriving DecidableEq

/-- Shapes of `pcb_smtpad` records (`circuit-json` schema). -/
inductive SmtPadShape where
  | circle (radius : ℚ)
  | rect (width height : ℚ)
  | rotated_rect (width height : ℚ)
  | pill (width height : ℚ)
  | rotated_pill (width height : ℚ)
  | polygon (points : List Point)
deriving DecidableEq

/-- Shapes of `pcb_plated_hole` records that `AddLibraryStage` supports; an
out-of-enum shape makes `ensurePadstackForPlatedHole` throw, so the created
padstacks only ever see these. -/
inductive PlatedHoleShape where
  | circle (outer_diameter : ℚ)
  | oval (outer_width outer_height : ℚ)
  | pill (outer_width outer_height : ℚ)
  | circular_hole_with_rect_pad (rect_pad_width rect_pad_height : ℚ)
deriving DecidableEq

structure PcbSmtPad where
  shape : SmtPadShape
  x : ℚ
  y : ℚ
  layer : Option String
  pcb_component_id : Option String
  pcb_port_id : Option String
  ccw_rotation : Option ℚ
deriving DecidableEq

structure PcbPlatedHole where
  shape : PlatedHoleShape
  x : ℚ
  y : ℚ
  pcb_component_id : Option String
  pcb_port_id : Option String
  ccw_rotation : Option ℚ
deriving DecidableEq

structure PcbComponent where
  pcb_component_id : String
  source_component_id : Option String
  center : Option Point
  width : Option ℚ
  height : Option ℚ
  rotation : Option ℚ
  layer : Option String
deriving DecidableEq

structure PcbPort where
  pcb_port_id : String
  source_port_id : String
deriving DecidableEq

structure SourcePort where
  source_port_id : String
  source_component_id : Option String
  name : Option String
  port_hints : Option (List String)
deriving DecidableEq

structure SourceTrace where
  connected_source_port_ids : Option (List String)
  connected_source_net_ids : Option (List String)
deriving DecidableEq

structure SourceNet where
  source_net_id : String
  name : String
deriving DecidableEq

structure PcbBoard where
  width : Option ℚ
  height : Option ℚ
  center : Option Point
  num_layers : Option ℕ
deriving DecidableEq

/-- The indexed record store (`ctx.db`): `db.<kind>.list()` returns each list
in source order. -/
structure CircuitDb where
  pcb_boards : List PcbBoard
  pcb_components : List PcbComponent
  pcb_smtpads : List PcbSmtPad
  pcb_plated_holes : List PcbPlatedHole
  pcb_ports : List PcbPort
  source_ports : List SourcePort
  source_traces : List SourceTrace
  source_nets : List SourceNet
deriving DecidableEq

/-- JavaScript truthiness of a possibly-absent string: `undefined` and `""`
are falsy. -/
def jsTruthy : Option String → Bool
  | none => false
  | some s => !(s == "")

/-- JavaScript `Map.set`: overwrite in place if the key exists, else append. -/
def jsMapSet {α : Type} (m : List (String × α)) (k : String) (v : α) : List (String × α) :=
  if (m.lookup k).isSome then m.map (fun e => if e.1 = k then (k, v) else e)
  else m ++ [(k, v)]

/-- JavaScript `Set.add`: append if not already present. -/
def jsSetAdd (s : List String) (x : String) : List String :=
  if s.contains x then s else s ++ [x]

def isDigitCh (c : Char) : Bool := 48 ≤ c.toNat && c.toNat ≤ 57

def isWsCh (c : Char) : Bool :=
  c.toNat = 32 || c.toNat = 9 || c.toNat = 10 || c.toNat = 11 ||
    c.toNat = 12 || c.toNat = 13

def trimWs (l : List Char) : List Char :=
  ((l.dropWhile isWsCh).reverse.dropWhile isWsCh).reverse

def stripSign : List Char → List Char
  | '+' :: rest => rest
  | '-' :: rest => rest
  | l => l

def decBody (l : List Char) : Bool :=
  let a := l.takeWhile isDigitCh
  let b := l.drop a.length
  match b with
  | [] => !a.isEmpty
  | '.' :: rest => (!a.isEmpty || !rest.isEmpty) && rest.all isDigitCh
  | _ => false

/-- Modelled JavaScript `Number.isNaN(Number(s))`, restricted to the decimal
fragment of the `Number` grammar (sign, digits, decimal point; hex and
exponent forms are out of scope — no claim depends on them).  Notably the
empty / all-whitespace string converts to `0`, hence is NOT NaN. -/
def jsNumberIsNaN (s : String) : Bool :=
  match trimWs s.data with
  | [] => false
  | l => !(decBody (stripSign l))

/-- Pin-identifier derivation as written inline in
`AddLibraryStage.createPinFromSmtPad` / `createPinFromPlatedHole`:
`sourcePort.port_hints?.find(h => !Number.isNaN(Number(h))) || sourcePort.name || "1"`.
The `||` chain skips falsy (empty-string / undefined) values. -/
def libPinIdOfSourcePort (sp : SourcePort) : String :=
  match (sp.port_hints.getD []).find? (fun h => !(jsNumberIsNaN h)) with
  | some s =>
    if s = "" then
      match sp.name with
      | some n => if n = "" then "1" else n
      | none => "1"
    else s
  | none =>
    match sp.name with
    | some n => if n = "" then "1" else n
    | none => "1"

/-- Pin-number derivation as written (twice) in `AddNetworkStage._step`,
textually the same expression as in `AddLibraryStage`. -/
def netPinNumberOfSourcePort (sp : SourcePort) : String :=
  match (sp.port_hints.getD []).find? (fun h => !(jsNumberIsNaN h)) with
  | some s =>
    if s = "" then
      match sp.name with
      | some n => if n = "" then "1" else n
      | none => "1"
    else s
  | none =>
    match sp.name with
    | some n => if n = "" then "1" else n
    | none => "1"

/-- Modelled from the spec (the derivation it describes): "the pin number is
the first port hint that parses as a number, else the port's name, else the
literal 1". -/
def specPinIdOfSourcePort (sp : SourcePort) : String :=
  match (sp.port_hints.getD []).find? (fun h => !(jsNumberIsNaN h)) with
  | some s => s
  | none =>
    match sp.name with
    | some n => n
    | none => "1"

def componentCenterX (comp : PcbComponent) : ℚ :=
  match comp.center with
  | some c => c.x
  | none => 0

def componentCenterY (comp : PcbComponent) : ℚ :=
  match comp.center with
  | some c => c.y
  | none => 0

/-- One `padInfos` fragment for an SMT pad, as built by
`generateFootprintSignature` (string form, exactly the code's template
literals). -/
def smtPadSigStr (component : PcbComponent) (pad : PcbSmtPad) : String :=
  let relX := jsRound ((pad.x - componentCenterX component) * 1000)
  let relY := jsRound ((pad.y - componentCenterY component) * 1000)
  let padDesc := match pad.shape with
    | .circle radius => "c:" ++ intStr (jsRound (radius * 2 * 1000))
    | .rect width height =>
        "r:" ++ intStr (jsRound (width * 1000)) ++ "x" ++ intStr (jsRound (height * 1000))
    | .rotated_rect width height =>
        "r:" ++ intStr (jsRound (width * 1000)) ++ "x" ++ intStr (jsRound (height * 1000))
    | .pill width height =>
        "p:" ++ intStr (jsRound (width * 1000)) ++ "x" ++ intStr (jsRound (height * 1000))
    | .rotated_pill width height =>
        "p:" ++ intStr (jsRound (width * 1000)) ++ "x" ++ intStr (jsRound (height * 1000))
    | .polygon _ => "u:polygon"
  padDesc ++ "@" ++ intStr relX ++ "," ++ intStr relY

/-- One `padInfos` fragment for a plated hole.  The `switch` has no case for
`circular_hole_with_rect_pad`, so it falls into the default branch
`hu:<shape>` and its dimensions are not part of the signature. -/
def holeSigStr (component : PcbComponent) (hole : PcbPlatedHole) : String :=
  let relX := jsRound ((hole.x - componentCenterX component) * 1000)
  let relY := jsRound ((hole.y - componentCenterY component) * 1000)
  let holeDesc := match hole.shape with
    | .circle outer_diameter => "hc:" ++ intStr (jsRound (outer_diameter * 1000))
    | .oval outer_width outer_height =>
        "ho:" ++ intStr (jsRound (outer_width * 1000)) ++ "x" ++ intStr (jsRound (outer_height * 1000))
    | .pill outer_width outer_height =>
        "ho:" ++ intStr (jsRound (outer_width * 1000)) ++ "x" ++ intStr (jsRound (outer_height * 1000))
    | .circular_hole_with_rect_pad _ _ => "hu:circular_hole_with_rect_pad"
  holeDesc ++ "@" ++ intStr relX ++ "," ++ intStr relY

/-- Structured content of `smtPadSigStr` (same data, pre-rendering). -/
def smtPadSigEntry (component : PcbComponent) (pad : PcbSmtPad) : SigEntry :=
  { desc :=
      match pad.shape with
      | .circle radius => .sc (jsRound (radius * 2 * 1000))
      | .rect width height => .sr (jsRound (width * 1000)) (jsRound (height * 1000))
      | .rotated_rect width height => .sr (jsRound (width * 1000)) (jsRound (height * 1000))
      | .pill width height => .sp (jsRound (width * 1000)) (jsRound (height * 1000))
      | .rotated_pill width height => .sp (jsRound (width * 1000)) (jsRound (height * 1000))
      | .polygon _ => .su
    relX := jsRound ((pad.x - componentCenterX component) * 1000)
    relY := jsRound ((pad.y - componentCenterY component) * 1000) }

/-- Structured content of `holeSigStr`. -/
def holeSigEntry (component : PcbComponent) (hole : PcbPlatedHole) : SigEntry :=
  { desc :=
      match hole.shape with
      | .circle outer_diameter => .hc (jsRound (outer_diameter * 1000))
      | .oval outer_width outer_height =>
          .ho (jsRound (outer_width * 1000)) (jsRound (outer_height * 1000))
      | .pill outer_width outer_height =>
          .ho (jsRound (outer_width * 1000)) (jsRound (outer_height * 1000))
      | .circular_hole_with_rect_pad _ _ => .hu
    relX := jsRound ((hole.x - componentCenterX component) * 1000)
    relY := jsRound ((hole.y - componentCenterY component) * 1000) }

theorem smtPadSigStr_eq_entryStr (component : PcbComponent) (pad : PcbSmtPad) :
    smtPadSigStr component pad = entryStr (smtPadSigEntry component pad) := by
  cases pad with
  | mk shape x y layer cid pid rot => cases shape <;> rfl

theorem holeSigStr_eq_entryStr (component : PcbComponent) (hole : PcbPlatedHole) :
    holeSigStr component hole = entryStr (holeSigEntry component hole) := by
  cases hole with
  | mk shape x y cid pid rot => cases shape <;> rfl

/-- Model of `AddLibraryStage.generateFootprintSignature`: build one fragment per
pad/hole, sort, join with `"|"`. -/
def generateFootprintSignature (smtPads : List PcbSmtPad)
    (platedHoles : List PcbPlatedHole) (component : PcbComponent) : String :=
  sortAndJoin (smtPads.map (smtPadSigStr component)
    ++ platedHoles.map (holeSigStr component))

/-- The signature fragments in structured (pre-string) form. -/
def sigEntries (component : PcbComponent) (smtPads : List PcbSmtPad)
    (platedHoles : List PcbPlatedHole) : List SigEntry :=
  smtPads.map (smtPadSigEntry component) ++ platedHoles.map (holeSigEntry component)

theorem sigFragments_eq_map_entryStr (component : PcbComponent)
    (smtPads : List PcbSmtPad) (platedHoles : List PcbPlatedHole) :
    smtPads.map (smtPadSigStr component) ++ platedHoles.map (holeSigStr component)
      = (sigEntries component smtPads platedHoles).map entryStr := by
  rw [sigEntries, List.map_append, List.map_map, List.map_map]
  congr 1
  · exact List.map_congr_left (fun p _ => smtPadSigStr_eq_entryStr component p)
  · exact List.map_congr_left (fun h _ => holeSigStr_eq_entryStr component h)

/-- Signature strings agree exactly when the structured fragment multisets
agree: the string encoding loses no information beyond the rounding and
shape-class collapsing already present in the fragments, and the sort makes
the comparison order-insensitive. -/
theorem generateFootprintSignature_eq_iff
    (c1 c2 : PcbComponent) (p1 p2 : List PcbSmtPad) (h1 h2 : List PcbPlatedHole) :
    generateFootprintSignature p1 h1 c1 = generateFootprintSignature p2 h2 c2 ↔
      (↑(sigEntries c1 p1 h1) : Multiset SigEntry) = ↑(sigEntries c2 p2 h2) := by
  rw [generateFootprintSignature, generateFootprintSignature,
    sigFragments_eq_map_entryStr, sigFragments_eq_map_entryStr]
  have hbf : ∀ (E : List SigEntry) s, s ∈ E.map entryStr → BarFree s := by
    intro E s hs
    obtain ⟨e, _, rfl⟩ := List.mem_map.mp hs
    exact entryStr_barFree e
  rw [sortAndJoin_eq_iff_perm (hbf _) (hbf _)]
  constructor
  · intro h
    apply Multiset.map_injective entryStr_injective
    rw [Multiset.map_coe, Multiset.map_coe]
    exact Multiset.coe_eq_coe.mpr h
  · intro h
    exact (Multiset.coe_eq_coe.mp h).map entryStr

/-- Exact (unrounded, unquantized) geometric description of one pad or hole
relative to the owning component's origin: full shape record (including
which constructor it is and any polygon points) and exact relative position. -/
structure PadGeom where
  shape : SmtPadShape ⊕ PlatedHoleShape
  relX : ℚ
  relY : ℚ
deriving DecidableEq

def exactPadGeom (component : PcbComponent) (pad : PcbSmtPad) : PadGeom :=
  ⟨Sum.inl pad.shape, pad.x - componentCenterX component,
    pad.y - componentCenterY component⟩

def exactHoleGeom (component : PcbComponent) (hole : PcbPlatedHole) : PadGeom :=
  ⟨Sum.inr hole.shape, hole.x - componentCenterX component,
    hole.y - componentCenterY component⟩

def exactGeoms (component : PcbComponent) (smtPads : List PcbSmtPad)
    (platedHoles : List PcbPlatedHole) : List PadGeom :=
  smtPads.map (exactPadGeom component) ++ platedHoles.map (exactHoleGeom component)

/-- Modelled from the spec: "geometrically identical modulo translation:
same pad/hole shape classes, same sizes, and the same unordered set of
positions relative to each component's own origin". -/
def GeomIdentical (c1 : PcbComponent) (p1 : List PcbSmtPad) (h1 : List PcbPlatedHole)
    (c2 : PcbComponent) (p2 : List PcbSmtPad) (h2 : List PcbPlatedHole) : Prop :=
  (↑(exactGeoms c1 p1 h1) : Multiset PadGeom) = ↑(exactGeoms c2 p2 h2)

/-- Rounding/classing map from exact geometry to signature fragment. -/
def roundGeom (g : PadGeom) : SigEntry :=
  { desc :=
      match g.shape with
      | .inl (.circle radius) => .sc (jsRound (radius * 2 * 1000))
      | .inl (.rect width height) => .sr (jsRound (width * 1000)) (jsRound (height * 1000))
      | .inl (.rotated_rect width height) => .sr (jsRound (width * 1000)) (jsRound (height * 1000))
      | .inl (.pill width height) => .sp (jsRound (width * 1000)) (jsRound (height * 1000))
      | .inl (.rotated_pill width height) => .sp (jsRound (width * 1000)) (jsRound (height * 1000))
      | .inl (.polygon _) => .su
      | .inr (.circle outer_diameter) => .hc (jsRound (outer_diameter * 1000))
      | .inr (.oval w h) => .ho (jsRound (w * 1000)) (jsRound (h * 1000))
      | .inr (.pill w h) => .ho (jsRound (w * 1000)) (jsRound (h * 1000))
      | .inr (.circular_hole_with_rect_pad _ _) => .hu
    relX := jsRound (g.relX * 1000)
    relY := jsRound (g.relY * 1000) }

theorem roundGeom_pad (component : PcbComponent) (pad : PcbSmtPad) :
    roundGeom (exactPadGeom component pad) = smtPadSigEntry component pad := by
  cases pad with
  | mk shape x y layer cid pid rot =>
    cases shape <;> simp [roundGeom, exactPadGeom, smtPadSigEntry, sub_mul]

theorem roundGeom_hole (component : PcbComponent) (hole : PcbPlatedHole) :
    roundGeom (exactHoleGeom component hole) = holeSigEntry component hole := by
  cases hole with
  | mk shape x y cid pid rot =>
    cases shape <;> simp [roundGeom, exactHoleGeom, holeSigEntry, sub_mul]

theorem sigEntries_eq_map_roundGeom (component : PcbComponent)
    (smtPads : List PcbSmtPad) (platedHoles : List PcbPlatedHole) :
    sigEntries component smtPads platedHoles
      = (exactGeoms component smtPads platedHoles).map roundGeom := by
  rw [sigEntries, exactGeoms, List.map_append, List.map_map, List.map_map]
  congr 1
  · exact (List.map_congr_left (fun p _ => (roundGeom_pad component p).symm))
  · exact (List.map_congr_left (fun h _ => (roundGeom_hole component h).symm))

/-- Model of `AddLibraryStage.generateFootprintName`: dimension-based name when the
component has positive rounded width and height, else pad-count-based. -/
def generateFootprintName (smtPads : List PcbSmtPad) (platedHoles : List PcbPlatedHole)
    (component : PcbComponent) (counter : ℕ) : String :=
  let width := jsRound ((component.width.getD 0) * 1000)
  let height := jsRound ((component.height.getD 0) * 1000)
  if 0 < width ∧ 0 < height then
    "footprint_" ++ intStr width ++ "x" ++ intStr height ++ "_" ++ natStr counter
  else
    "footprint_" ++ natStr (smtPads.length + platedHoles.length) ++ "pin_" ++ natStr counter

/-- Scale-1000 transform: `applyToPoint(scale(1000), p)`, the matrix the
converter constructor installs (`CIRCUIT_JSON_TO_DSN_SCALE = 1000`). -/
def transformPoint (p : Point) : Point := ⟨1000 * p.x, 1000 * p.y⟩

/-- Primitive shapes inside a padstack (`DsnCircle` / `DsnRect` /
`DsnPolygon` children of a `DsnShape`). -/
inductive PadPrim where
  | circle (diameter : ℤ)
  | rect (x1 y1 x2 y2 : ℚ)
  | polygon (apertureWidth : ℚ) (coordinates : List ℚ)
deriving DecidableEq

/-- A `DsnShape` child of a padstack: primitive tagged with its layer. -/
structure DsnShapeM where
  layer : String
  prim : PadPrim
deriving DecidableEq

structure DsnPadstackM where
  padstackId : String
  shapes : List DsnShapeM
deriving DecidableEq

/-- Layer selection in `createPadstackForSmtPad`:
`(smtPad.layer ?? "top") === "bottom" ? "2" : "1"`. -/
def smtPadLayerNum (pad : PcbSmtPad) : String :=
  if pad.layer.getD "top" = "bottom" then "2" else "1"

def polygonCoordinates (points : List Point) : List ℚ :=
  points.foldr (fun p acc => (transformPoint p).x :: (transformPoint p).y :: acc) []

/-- Model of `AddLibraryStage.createPadstackForSmtPad`: one shape, on the pad's own
layer. -/
def createPadstackForSmtPad (smtPad : PcbSmtPad) (padstackId : String) : DsnPadstackM :=
  let layerNum := smtPadLayerNum smtPad
  let shapes : List DsnShapeM :=
    match smtPad.shape with
    | .circle radius => [⟨layerNum, .circle (jsRound (radius * 2 * 1000))⟩]
    | .rect width height =>
        let w : ℤ := jsRound (width * 1000)
        let h : ℤ := jsRound (height * 1000)
        [⟨layerNum, .rect (-(w : ℚ)/2) (-(h : ℚ)/2) ((w : ℚ)/2) ((h : ℚ)/2)⟩]
    | .rotated_rect width height =>
        let w : ℤ := jsRound (width * 1000)
        let h : ℤ := jsRound (height * 1000)
        [⟨layerNum, .rect (-(w : ℚ)/2) (-(h : ℚ)/2) ((w : ℚ)/2) ((h : ℚ)/2)⟩]
    | .pill width height =>
        let w : ℤ := jsRound (width * 1000)
        let h : ℤ := jsRound (height * 1000)
        [⟨layerNum, .rect (-(w : ℚ)/2) (-(h : ℚ)/2) ((w : ℚ)/2) ((h : ℚ)/2)⟩]
    | .rotated_pill width height =>
        let w : ℤ := jsRound (width * 1000)
        let h : ℤ := jsRound (height * 1000)
        [⟨layerNum, .rect (-(w : ℚ)/2) (-(h : ℚ)/2) ((w : ℚ)/2) ((h : ℚ)/2)⟩]
    | .polygon points => [⟨layerNum, .polygon 0 (polygonCoordinates points)⟩]
  ⟨padstackId, shapes⟩

/-- Primitive built for a plated hole on one layer (body of the per-layer
`switch` in `createPadstackForPlatedHole`). -/
def platedHolePrim (platedHole : PcbPlatedHole) : PadPrim :=
  match platedHole.shape with
  | .circle outer_diameter => .circle (jsRound (outer_diameter * 1000))
  | .oval outer_width outer_height =>
      let w : ℤ := jsRound (outer_width * 1000)
      let h : ℤ := jsRound (outer_height * 1000)
      .rect (-(w : ℚ)/2) (-(h : ℚ)/2) ((w : ℚ)/2) ((h : ℚ)/2)
  | .pill outer_width outer_height =>
      let w : ℤ := jsRound (outer_width * 1000)
      let h : ℤ := jsRound (outer_height * 1000)
      .rect (-(w : ℚ)/2) (-(h : ℚ)/2) ((w : ℚ)/2) ((h : ℚ)/2)
  | .circular_hole_with_rect_pad rect_pad_width rect_pad_height =>
      let w : ℤ := jsRound (rect_pad_width * 1000)
      let h : ℤ := jsRound (rect_pad_height * 1000)
      .rect (-(w : ℚ)/2) (-(h : ℚ)/2) ((w : ℚ)/2) ((h : ℚ)/2)

/-- Model of `AddLibraryStage.createPadstackForPlatedHole`: the same shape is pushed
once per copper layer, `for (const layerNum of ["1", "2"])`. -/
def createPadstackForPlatedHole (platedHole : PcbPlatedHole) (padstackId : String) : DsnPadstackM :=
  ⟨padstackId, (["1", "2"] : List String).map (fun layerNum => ⟨layerNum, platedHolePrim platedHole⟩)⟩

/-- ToInt32 wrap-around, used by the JS `<<`, `&` operators in `simpleHash`. -/
def toInt32 (n : ℤ) : ℤ := ((n + 2 ^ 31) % 2 ^ 32) - 2 ^ 31

def simpleHashStep (hash : ℤ) (c : Char) : ℤ :=
  toInt32 (toInt32 (hash * 32) - hash + c.toNat)

def digitChar36 (d : ℕ) : Char :=
  if d < 10 then Char.ofNat (48 + d) else Char.ofNat (87 + d)

def natStr36Aux : ℕ → ℕ → List Char
  | 0, _ => []
  | fuel + 1, n => if n = 0 then [] else natStr36Aux fuel (n / 36) ++ [digitChar36 (n % 36)]

/-- Base-36 rendering, JavaScript `Math.abs(hash).toString(36)`. -/
def natStr36 (n : ℕ) : String := if n = 0 then "0" else ⟨natStr36Aux (n + 1) n⟩

/-- Model of `AddLibraryStage.simpleHash`. -/
def simpleHash (s : String) : String :=
  natStr36 (s.data.foldl simpleHashStep 0).natAbs

/-- JavaScript `Array.prototype.join(sep)`. -/
def joinSep (sep : String) : List String → String
  | [] => ""
  | [s] => s
  | s :: t :: l => s ++ sep ++ joinSep sep (t :: l)

/-- Decimal stand-in rendering of a rational for the polygon padstack id
(`${p.x},${p.y}`).  JavaScript prints a float here; we print `num/den`.
The only property relied upon is that the id is a deterministic function of
the points, which holds for any injective rendering. -/
def qStr (q : ℚ) : String :=
  if q.den = 1 then intStr q.num else intStr q.num ++ "/" ++ natStr q.den

def polygonPointsStr (points : List Point) : String :=
  joinSep "_" (points.map (fun p => qStr p.x ++ "," ++ qStr p.y))

/-- Padstack id computed by `ensurePadstackForSmtPad`. -/
def smtPadPadstackId (smtPad : PcbSmtPad) : String :=
  match smtPad.shape with
  | .circle radius => "p" ++ intStr (jsRound (radius * 2 * 1000))
  | .rect width height =>
      "p" ++ intStr (jsRound (width * 1000)) ++ "x" ++ intStr (jsRound (height * 1000))
  | .rotated_rect width height =>
      "p" ++ intStr (jsRound (width * 1000)) ++ "x" ++ intStr (jsRound (height * 1000))
  | .pill width height =>
      "p" ++ intStr (jsRound (width * 1000)) ++ "x" ++ intStr (jsRound (height * 1000)) ++ "_pill"
  | .rotated_pill width height =>
      "p" ++ intStr (jsRound (width * 1000)) ++ "x" ++ intStr (jsRound (height * 1000)) ++ "_pill"
  | .polygon points => "p" ++ simpleHash (polygonPointsStr points)

/-- Padstack id computed by `ensurePadstackForPlatedHole`. -/
def platedHolePadstackId (platedHole : PcbPlatedHole) : String :=
  match platedHole.shape with
  | .circle outer_diameter => "p" ++ intStr (jsRound (outer_diameter * 1000)) ++ "_hole"
  | .oval outer_width outer_height =>
      "p" ++ intStr (jsRound (outer_width * 1000)) ++ "x"
        ++ intStr (jsRound (outer_height * 1000)) ++ "_hole"
  | .pill outer_width outer_height =>
      "p" ++ intStr (jsRound (outer_width * 1000)) ++ "x"
        ++ intStr (jsRound (outer_height * 1000)) ++ "_hole"
  | .circular_hole_with_rect_pad rect_pad_width rect_pad_height =>
      "p" ++ intStr (jsRound (rect_pad_width * 1000)) ++ "x"
        ++ intStr (jsRound (rect_pad_height * 1000)) ++ "_recthole"

/-- Model of `ensurePadstackForSmtPad`: compute the id, create the padstack on first
sight (`processedPadstacks` is the dedup set), return the id. -/
def ensurePadstackForSmtPad (smtPad : PcbSmtPad) (processed : List String)
    (padstacks : List DsnPadstackM) : String × List String × List DsnPadstackM :=
  let padstackId := smtPadPadstackId smtPad
  if processed.contains padstackId then (padstackId, processed, padstacks)
  else (padstackId, processed ++ [padstackId],
    padstacks ++ [createPadstackForSmtPad smtPad padstackId])

def ensurePadstackForPlatedHole (platedHole : PcbPlatedHole) (processed : List String)
    (padstacks : List DsnPadstackM) : String × List String × List DsnPadstackM :=
  let padstackId := platedHolePadstackId platedHole
  if processed.contains padstackId then (padstackId, processed, padstacks)
  else (padstackId, processed ++ [padstackId],
    padstacks ++ [createPadstackForPlatedHole platedHole padstackId])

structure DsnPinM where
  padstackId : String
  pinId : String
  x : ℚ
  y : ℚ
  rotation : ℚ
deriving DecidableEq

/-- Resolution `pcb_port_id → pcb_port → source_port → pin id` shared by the
two `createPinFrom...` helpers, defaulting to `"1"` whenever a link of the
chain is missing. -/
def padChainPinId (db : CircuitDb) (portId : Option String) : String :=
  match portId with
  | some pid =>
    if pid = "" then "1"
    else
      match db.pcb_ports.find? (fun p => p.pcb_port_id == pid) with
      | some pcbPort =>
        match db.source_ports.find? (fun p => p.source_port_id == pcbPort.source_port_id) with
        | some sourcePort => libPinIdOfSourcePort sourcePort
        | none => "1"
      | none => "1"
  | none => "1"

/-- Model of `AddLibraryStage.createPinFromSmtPad`. -/
def createPinFromSmtPad (db : CircuitDb) (smtPad : PcbSmtPad) (padstackId : String)
    (component : PcbComponent) : DsnPinM :=
  let t := transformPoint ⟨smtPad.x - componentCenterX component,
    smtPad.y - componentCenterY component⟩
  ⟨padstackId, padChainPinId db smtPad.pcb_port_id, t.x, t.y, smtPad.ccw_rotation.getD 0⟩

/-- Model of `AddLibraryStage.createPinFromPlatedHole`. -/
def createPinFromPlatedHole (db : CircuitDb) (platedHole : PcbPlatedHole) (padstackId : String)
    (component : PcbComponent) : DsnPinM :=
  let t := transformPoint ⟨platedHole.x - componentCenterX component,
    platedHole.y - componentCenterY component⟩
  ⟨padstackId, padChainPinId db platedHole.pcb_port_id, t.x, t.y, platedHole.ccw_rotation.getD 0⟩

structure DsnImageM where
  imageId : String
  pins : List DsnPinM
deriving DecidableEq

/-- Mutable state threaded through `AddLibraryStage._step`'s component loop. -/
structure LibState where
  processedPadstacks : List String
  padstacks : List DsnPadstackM
  images : List DsnImageM
  sigToName : List (String × String)
  footprintCounter : ℕ
  compMap : List (String × String)
deriving DecidableEq

def initLibState : LibState := ⟨[], [], [], [], 0, []⟩

def padsOfComponent (db : CircuitDb) (componentId : String) : List PcbSmtPad :=
  db.pcb_smtpads.filter (fun p => p.pcb_component_id == some componentId)

def holesOfComponent (db : CircuitDb) (componentId : String) : List PcbPlatedHole :=
  db.pcb_plated_holes.filter (fun h => h.pcb_component_id == some componentId)

/-- One iteration of the `for (const pcbComponent of pcbComponents)` loop in
`AddLibraryStage._step`. -/
def processComponent (db : CircuitDb) (st : LibState) (comp : PcbComponent) : LibState :=
  let componentId := comp.pcb_component_id
  let smtPads := padsOfComponent db componentId
  let platedHoles := holesOfComponent db componentId
  if smtPads.length = 0 ∧ platedHoles.length = 0 then st
  else
    let signature := generateFootprintSignature smtPads platedHoles comp
    match st.sigToName.lookup signature with
    | some existingName =>
      { st with compMap := jsMapSet st.compMap componentId existingName }
    | none =>
      let acc1 := smtPads.foldl
        (fun acc pad =>
          let e := ensurePadstackForSmtPad pad acc.2.1 acc.2.2
          (acc.1 ++ [createPinFromSmtPad db pad e.1 comp], e.2.1, e.2.2))
        (([] : List DsnPinM), st.processedPadstacks, st.padstacks)
      let acc2 := platedHoles.foldl
        (fun acc hole =>
          let e := ensurePadstackForPlatedHole hole acc.2.1 acc.2.2
          (acc.1 ++ [createPinFromPlatedHole db hole e.1 comp], e.2.1, e.2.2))
        acc1
      let footprintName := generateFootprintName smtPads platedHoles comp st.footprintCounter
      { processedPadstacks := acc2.2.1
        padstacks := acc2.2.2
        images := st.images ++ [⟨footprintName, acc2.1⟩]
        sigToName := st.sigToName ++ [(signature, footprintName)]
        footprintCounter := st.footprintCounter + 1
        compMap := jsMapSet st.compMap componentId footprintName }

/-- The whole component loop of `AddLibraryStage._step` (the signature /
image / padstack bookkeeping; `footprintSignatureToName` is written but never
read and is omitted). -/
def addLibraryState (db : CircuitDb) : LibState :=
  db.pcb_components.foldl (processComponent db) initLibState

/-! Network stage (`AddNetworkStage._step`). -/

/-- Resolved pad info stored in `padsBySourcePortId`. -/
structure PadInfo where
  pcbComponentId : String
  pinNumber : String
  sourcePortId : String
deriving DecidableEq

/-- Step 1 of the stage: map `source_component_id → pcb_component_id`
(`sourceCompToPcbCompMap`), keyed by truthy `source_component_id`s. -/
def sourceCompToPcbCompMap (db : CircuitDb) : List (String × String) :=
  db.pcb_components.foldl
    (fun m pcbComp =>
      match pcbComp.source_component_id with
      | some scid => if scid = "" then m else jsMapSet m scid pcbComp.pcb_component_id
      | none => m)
    []

/-- Resolution chain shared by the SMT-pad and plated-hole passes that build
`padsBySourcePortId`: follow `pcb_port_id → pcb_port → source_port`, require
a truthy `source_component_id` that the component map resolves to a truthy
output id, and record the pin number. -/
def resolvePadEntry (db : CircuitDb) (compMap : List (String × String))
    (portId : Option String) : Option (String × PadInfo) :=
  match portId with
  | none => none
  | some pid =>
    if pid = "" then none
    else
      match db.pcb_ports.find? (fun p => p.pcb_port_id == pid) with
      | none => none
      | some pcbPort =>
        match db.source_ports.find? (fun p => p.source_port_id == pcbPort.source_port_id) with
        | none => none
        | some sourcePort =>
          match sourcePort.source_component_id with
          | none => none
          | some scid =>
            if scid = "" then none
            else
              match compMap.lookup scid with
              | none => none
              | some pcbComponentId =>
                if pcbComponentId = "" then none
                else
                  some (sourcePort.source_port_id,
                    ⟨pcbComponentId, netPinNumberOfSourcePort sourcePort,
                      sourcePort.source_port_id⟩)

/-- Step 2 of the stage: `padsBySourcePortId`, built from all SMT pads then
all plated holes (later entries overwrite earlier ones for the same
source-port id, as `Map.set` does). -/
def padsBySourcePortId (db : CircuitDb) : List (String × PadInfo) :=
  let m1 := db.pcb_smtpads.foldl
    (fun m pad =>
      match resolvePadEntry db (sourceCompToPcbCompMap db) pad.pcb_port_id with
      | some (k, v) => jsMapSet m k v
      | none => m)
    []
  db.pcb_plated_holes.foldl
    (fun m hole =>
      match resolvePadEntry db (sourceCompToPcbCompMap db) hole.pcb_port_id with
      | some (k, v) => jsMapSet m k v
      | none => m)
    m1

/-- Pin reference `<pcbComponentId>-<pinNumber>` added to a net's pin set. -/
def padRef (info : PadInfo) : String := info.pcbComponentId ++ "-" ++ info.pinNumber

/-- The net name derived from the first resolved pad of a trace:
`Net-(<componentId>-Pad<pinNumber>)`. -/
def traceNetName (info : PadInfo) : String :=
  "Net-(" ++ info.pcbComponentId ++ "-Pad" ++ info.pinNumber ++ ")"

/-- Pad references of all resolvable connected ports of a trace, in order. -/
def traceRefs (idx : List (String × PadInfo)) (trace : SourceTrace) : List String :=
  (trace.connected_source_port_ids.getD []).filterMap
    (fun portId => (idx.lookup portId).map padRef)

/-- Net map: net name to pin set (insertion-ordered, deduplicated). -/
abbrev NetMap := List (String × List String)

/-- Ensure a key exists in the net map (`if (!netMap.has(n)) netMap.set(n, new Set())`). -/
def ensureNet (m : NetMap) (netName : String) : NetMap :=
  if (m.lookup netName).isSome then m else m ++ [(netName, [])]

/-- Add pins to an existing net entry in place. -/
def addPinsToNet (m : NetMap) (netName : String) (refs : List String) : NetMap :=
  m.map (fun e => if e.1 = netName then (e.1, refs.foldl jsSetAdd e.2) else e)

/-- One iteration of the trace pass
(`for (const trace of db.source_trace.list())`): a net is created/extended
only when the trace has at least two connected ports, the first port id is
truthy, and it resolves in `padsBySourcePortId`. -/
def processTrace (idx : List (String × PadInfo)) (m : NetMap) (trace : SourceTrace) : NetMap :=
  let connectedPorts := trace.connected_source_port_ids.getD []
  match connectedPorts.head? with
  | none => m
  | some p0 =>
    if 2 ≤ connectedPorts.length ∧ p0 ≠ "" then
      match idx.lookup p0 with
      | some firstPad =>
        let netName := traceNetName firstPad
        addPinsToNet (ensureNet m netName) netName (traceRefs idx trace)
      | none => m
    else m

/-- Step 3 of the stage: the whole trace pass. -/
def tracePass (idx : List (String × PadInfo)) (traces : List SourceTrace)
    (m : NetMap) : NetMap :=
  traces.foldl (processTrace idx) m

/-- One iteration of the source-net pass: ensure the `<name>_<id>` entry and
add every resolvable port of every trace connected to this net. -/
def processSourceNet (db : CircuitDb) (idx : List (String × PadInfo))
    (m : NetMap) (sourceNet : SourceNet) : NetMap :=
  let netName := sourceNet.name ++ "_" ++ sourceNet.source_net_id
  let connectedTraces := db.source_traces.filter
    (fun t => (t.connected_source_net_ids.getD []).contains sourceNet.source_net_id)
  connectedTraces.foldl
    (fun m' trace => addPinsToNet m' netName (traceRefs idx trace))
    (ensureNet m netName)

/-- Step 4 of the stage: the source-net pass. -/
def sourceNetPass (db : CircuitDb) (idx : List (String × PadInfo)) (m : NetMap) : NetMap :=
  db.source_nets.foldl (processSourceNet db idx) m

/-- Steps 3–5 of `AddNetworkStage._step`: build the net map from both passes
and emit one `(netName, pinRefs)` record per entry with a non-empty pin set. -/
def addNetworkNets (db : CircuitDb) : List (String × List String) :=
  let idx := padsBySourcePortId db
  let m := sourceNetPass db idx (tracePass idx db.source_traces [])
  (m.filter (fun e => !e.2.isEmpty))

/-! Structure stage (`AddStructureStage._step`), placement stage
(`AddPlacementStage._step`), the output document skeleton and the driver. -/

structure DsnLayerM where
  layerName : String
  type : String
  index : ℕ
deriving DecidableEq

/-- Model of `AddStructureStage.generateLayers`: front copper at index 0, synthesized
inner layers, back copper last; fewer than 2 layers is a fatal fault. -/
def generateLayers (numLayers : ℕ) : Except String (List DsnLayerM) :=
  if numLayers < 2 then .error "PCB must have at least 2 layers"
  else .ok ([⟨"F.Cu", "signal", 0⟩]
    ++ (List.range (numLayers - 2)).map
        (fun i => ⟨"In" ++ natStr (i + 1) ++ ".Cu", "signal", i + 1⟩)
    ++ [⟨"B.Cu", "signal", numLayers - 1⟩])

structure DsnPathM where
  layer : String
  width : ℚ
  coordinates : List ℚ
deriving DecidableEq

structure DsnBoundaryM where
  paths : List DsnPathM
deriving DecidableEq

/-- The five boundary corners in source space, in the fixed order top-left,
top-right, bottom-right, bottom-left, repeat-first; board width/height
default to 100, the center to the origin. -/
def boundaryCorners (pcbBoard : Option PcbBoard) : List Point :=
  let boardWidth := (pcbBoard.bind (·.width)).getD 100
  let boardHeight := (pcbBoard.bind (·.height)).getD 100
  let centerX := ((pcbBoard.bind (·.center)).map Point.x).getD 0
  let centerY := ((pcbBoard.bind (·.center)).map Point.y).getD 0
  let halfWidth := boardWidth / 2
  let halfHeight := boardHeight / 2
  [⟨centerX - halfWidth, centerY - halfHeight⟩,
   ⟨centerX + halfWidth, centerY - halfHeight⟩,
   ⟨centerX + halfWidth, centerY + halfHeight⟩,
   ⟨centerX - halfWidth, centerY + halfHeight⟩,
   ⟨centerX - halfWidth, centerY - halfHeight⟩]

/-- The transformed flat coordinate list `x0,y0,x1,y1,…` of the boundary. -/
def boundaryCoordinates (pcbBoard : Option PcbBoard) : List ℚ :=
  (boundaryCorners pcbBoard).foldr
    (fun corner acc => (transformPoint corner).x :: (transformPoint corner).y :: acc) []

/-- The boundary written by `AddStructureStage._step`: a single path with the
sentinel layer `"pcb"` and stroke width `0`. -/
def addStructureBoundary (pcbBoard : Option PcbBoard) : DsnBoundaryM :=
  ⟨[⟨"pcb", 0, boundaryCoordinates pcbBoard⟩]⟩

structure DsnClearanceM where
  value : ℚ
  type : Option String
deriving DecidableEq

structure DsnRuleM where
  width : ℚ
  clearances : List DsnClearanceM
deriving DecidableEq

/-- Fixed design rules emitted by `AddStructureStage._step`. -/
def structureRules : DsnRuleM :=
  ⟨200, [⟨200, none⟩, ⟨200, some "default_smd"⟩, ⟨50, some "smd_smd"⟩]⟩

structure DsnStructureM where
  layers : Option (List DsnLayerM)
  boundary : Option DsnBoundaryM
  rules : Option (List DsnRuleM)
deriving DecidableEq

structure DsnPlaceM where
  componentRef : String
  x : ℚ
  y : ℚ
  side : String
  rotation : ℚ
deriving DecidableEq

structure DsnComponentM where
  imageId : String
  places : List DsnPlaceM
deriving DecidableEq

structure DsnPlacementM where
  components : List DsnComponentM
deriving DecidableEq

structure DsnLibraryM where
  images : List DsnImageM
  padstacks : List DsnPadstackM
deriving DecidableEq

structure DsnNetworkM where
  nets : List (String × List String)
deriving DecidableEq

/-- The output document object.  `structureSection` models the `structure`
field (a Lean keyword).  Sections are `Option`s: absent until created. -/
structure SpectraDsnM where
  designName : String
  parserInfo : Option String
  resolution : Option (String × ℕ)
  unit : Option String
  structureSection : Option DsnStructureM
  placement : Option DsnPlacementM
  library : Option DsnLibraryM
  network : Option DsnNetworkM
  wiring : Option Unit
deriving DecidableEq

/-- Constructor `new SpectraDsn({designName})` of the external `dsnts` library: sections
start absent (they are only known to be set by `InitializeDsnStage`). -/
def newSpectraDsn (designName : String) : SpectraDsnM :=
  ⟨designName, none, none, none, none, none, none, none, none⟩

/-- The shared `ConverterContext`.  The transform matrix is only ever
`scale(1000)` (applied as `transformPoint`), so the context records just its
presence. -/
structure ConverterContext where
  db : CircuitDb
  spectraDsn : Option SpectraDsnM
  circuitJsonToDsnTransformMatrix : Option Unit
  componentToFootprintName : Option (List (String × String))
  viaPadstackName : Option String
deriving DecidableEq

/-- Model of `InitializeDsnStage._step`: build a fresh document with parser info,
resolution, unit and empty structure/placement/library/network/wiring
sections, store it in the context, finish. -/
def initializeDsnStep (ctx : ConverterContext) : Except String (ConverterContext × Bool) :=
  let dsn : SpectraDsnM :=
    { designName := "circuit-design"
      parserInfo := some "circuit-json-to-dsn"
      resolution := some ("um", 10)
      unit := some "um"
      structureSection := some ⟨none, none, none⟩
      placement := some ⟨[]⟩
      library := some ⟨[], []⟩
      network := some ⟨[]⟩
      wiring := some () }
  .ok ({ ctx with spectraDsn := some dsn }, true)

/-- Model of `AddStructureStage._step`. -/
def addStructureStep (ctx : ConverterContext) : Except String (ConverterContext × Bool) :=
  match ctx.spectraDsn with
  | none => .error "SpectraDsn instance not initialized in context"
  | some dsn =>
    match dsn.structureSection with
    | none => .error "DsnStructure not initialized in SpectraDsn"
    | some structureSec =>
      match ctx.circuitJsonToDsnTransformMatrix with
      | none => .error "Transform matrix not initialized in context"
      | some _ =>
        let pcbBoard := ctx.db.pcb_boards.head?
        let numLayers := (pcbBoard.bind (·.num_layers)).getD 2
        match generateLayers numLayers with
        | .error e => .error e
        | .ok layers =>
          let structureSec2 : DsnStructureM :=
            { structureSec with
                layers := some layers
                boundary := some (addStructureBoundary pcbBoard)
                rules := some [structureRules] }
          let dsn2 : SpectraDsnM := { dsn with structureSection := some structureSec2 }
          .ok ({ ctx with spectraDsn := some dsn2 }, true)

/-- Model of `AddLibraryStage._step` (the shape `switch`es are total on the modelled
shape enums, so the unsupported-shape `throw`s are unreachable here). -/
def addLibraryStep (ctx : ConverterContext) : Except String (ConverterContext × Bool) :=
  match ctx.spectraDsn with
  | none => .error "SpectraDsn instance not initialized in context"
  | some dsn =>
    match dsn.library with
    | none => .error "DsnLibrary not initialized in SpectraDsn"
    | some _ =>
      match ctx.circuitJsonToDsnTransformMatrix with
      | none => .error "Transform matrix not initialized in context"
      | some _ =>
        let st := addLibraryState ctx.db
        .ok ({ ctx with
          componentToFootprintName := some st.compMap
          spectraDsn := some { dsn with library := some ⟨st.images, st.padstacks⟩ } }, true)

/-- Component side: `(layer ?? "top") === "bottom" ? "back" : "front"`. -/
def placeSide (comp : PcbComponent) : String :=
  if comp.layer.getD "top" = "bottom" then "back" else "front"

def placeOfComponent (comp : PcbComponent) : DsnPlaceM :=
  let t := transformPoint ⟨componentCenterX comp, componentCenterY comp⟩
  ⟨comp.pcb_component_id, t.x, t.y, placeSide comp, comp.rotation.getD 0⟩

/-- The `footprintToPlaces` grouping loop of `AddPlacementStage._step`. -/
def placementGroups (db : CircuitDb) (compMap : List (String × String)) :
    List (String × List DsnPlaceM) :=
  db.pcb_components.foldl
    (fun g comp =>
      match compMap.lookup comp.pcb_component_id with
      | none => g
      | some footprintName =>
        if footprintName = "" then g
        else
          match g.lookup footprintName with
          | some places => jsMapSet g footprintName (places ++ [placeOfComponent comp])
          | none => g ++ [(footprintName, [placeOfComponent comp])])
    []

/-- Model of `AddPlacementStage._step`. -/
def addPlacementStep (ctx : ConverterContext) : Except String (ConverterContext × Bool) :=
  match ctx.spectraDsn with
  | none => .error "SpectraDsn instance not initialized in context"
  | some dsn =>
    match dsn.placement with
    | none => .error "DsnPlacement not initialized in SpectraDsn"
    | some _ =>
      match ctx.circuitJsonToDsnTransformMatrix with
      | none => .error "Transform matrix not initialized in context"
      | some _ =>
        match ctx.componentToFootprintName with
        | none => .error
            "componentToFootprintName not initialized in context (AddLibraryStage must run first)"
        | some compMap =>
          let components := (placementGroups ctx.db compMap).map
            (fun e => DsnComponentM.mk e.1 e.2)
          let dsn2 : SpectraDsnM := { dsn with placement := some ⟨components⟩ }
          .ok ({ ctx with spectraDsn := some dsn2 }, true)

/-- Model of `AddNetworkStage._step`. -/
def addNetworkStep (ctx : ConverterContext) : Except String (ConverterContext × Bool) :=
  match ctx.spectraDsn with
  | none => .error "SpectraDsn instance not initialized in context"
  | some dsn =>
    match dsn.network with
    | none => .error "DsnNetwork not initialized in SpectraDsn"
    | some _ =>
      let dsn2 : SpectraDsnM := { dsn with network := some ⟨addNetworkNets ctx.db⟩ }
      .ok ({ ctx with spectraDsn := some dsn2 }, true)

/-- Per-stage mutable state of the `ConverterStage` base class. -/
structure StageState where
  iteration : ℕ
  finished : Bool
deriving DecidableEq

def MAX_ITERATIONS : ℕ := 1000

/-- A stage's `_step` body: reads the shared context, returns the updated
context and the stage's `finished` flag (or throws). -/
abbrev StageBody := ConverterContext → Except String (ConverterContext × Bool)

/-- Model of `ConverterStage.step`: increment the private iteration counter first,
fault if it exceeds the ceiling, else delegate to `_step`. -/
def converterStageStep (body : StageBody) (ctx : ConverterContext) (s : StageState) :
    Except String (ConverterContext × StageState) :=
  let iteration := s.iteration + 1
  if iteration > MAX_ITERATIONS then .error "Max iterations reached"
  else
    match body ctx with
    | .error e => .error e
    | .ok (ctx2, fin) => .ok (ctx2, ⟨iteration, fin⟩)

/-- The converter pipeline built in the `CircuitJsonToDsnConverter`
constructor. -/
def pipelineBodies : List StageBody :=
  [initializeDsnStep, addStructureStep, addLibraryStep, addPlacementStep, addNetworkStep]

structure DriverState where
  ctx : ConverterContext
  stages : List StageState
  currentStageIndex : ℕ
  finished : Bool

/-- Model of `CircuitJsonToDsnConverter.step`: run one step of the current stage,
advance to the next stage when it reports finished; past the last stage the
driver itself finishes. -/
def driverStep (bodies : List StageBody) (d : DriverState) : Except String DriverState :=
  match bodies.get? d.currentStageIndex, d.stages.get? d.currentStageIndex with
  | some body, some s =>
    match converterStageStep body d.ctx s with
    | .error e => .error e
    | .ok (ctx2, s2) =>
      .ok { ctx := ctx2
            stages := d.stages.set d.currentStageIndex s2
            currentStageIndex :=
              if s2.finished then d.currentStageIndex + 1 else d.currentStageIndex
            finished := d.finished }
  | _, _ => .ok { d with finished := true }

/-- Model of `runUntilFinished`, with explicit fuel: one unit per loop-condition
check.  `none` means the fuel ran out before the loop exited. -/
def runUntilFinishedFuel (bodies : List StageBody) :
    ℕ → DriverState → Option (Except String DriverState)
  | 0, _ => none
  | fuel + 1, d =>
    if d.finished then some (.ok d)
    else
      match driverStep bodies d with
      | .error e => some (.error e)
      | .ok d2 => runUntilFinishedFuel bodies fuel d2

/-- Driver state as built by the `CircuitJsonToDsnConverter` constructor. -/
def initialConverter (db : CircuitDb) : DriverState :=
  { ctx :=
      { db := db
        spectraDsn := some (newSpectraDsn "circuit-json-to-dsn")
        circuitJsonToDsnTransformMatrix := some ()
        componentToFootprintName := none
        viaPadstackName := none }
    stages := pipelineBodies.map (fun _ => ⟨0, false⟩)
    currentStageIndex := 0
    finished := false }

/-! Generic lemmas about the JavaScript map/set models. -/

theorem lookup_append {α : Type} (m l : List (String × α)) (k : String) :
    (m ++ l).lookup k = ((m.lookup k).rec (l.lookup k) (fun v => some v)) := by
  induction m with
  | nil => simp
  | cons e es ih =>
    rw [List.cons_append, List.lookup_cons, List.lookup_cons]
    by_cases hbeq : (k == e.1) = true
    · rw [hbeq]
    · rw [Bool.not_eq_true] at hbeq
      rw [hbeq, ih]

theorem lookup_append_left {α : Type} {m : List (String × α)} {k : String} {v : α}
    (h : m.lookup k = some v) (l : List (String × α)) : (m ++ l).lookup k = some v := by
  rw [lookup_append, h]

theorem lookup_append_right {α : Type} {m : List (String × α)} {k : String}
    (h : m.lookup k = none) (l : List (String × α)) : (m ++ l).lookup k = l.lookup k := by
  rw [lookup_append, h]

theorem lookup_replace_self {α : Type} {m : List (String × α)} {k : String} (v : α)
    (h : (m.lookup k).isSome) :
    (m.map (fun e => if e.1 = k then (k, v) else e)).lookup k = some v := by
  induction m with
  | nil => simp at h
  | cons e es ih =>
    rw [List.map_cons]
    by_cases he : e.1 = k
    · rw [if_pos he, List.lookup_cons]
      simp
    · rw [if_neg he, List.lookup_cons]
      have hbeq : (k == e.1) = false := by
        simp only [beq_eq_false_iff_ne, ne_eq]
        exact fun heq => he heq.symm
      rw [hbeq]
      apply ih
      rw [List.lookup_cons, hbeq] at h
      exact h

theorem lookup_replace_ne {α : Type} (m : List (String × α)) (k k2 : String) (v : α)
    (h : k2 ≠ k) :
    (m.map (fun e => if e.1 = k then (k, v) else e)).lookup k2 = m.lookup k2 := by
  induction m with
  | nil => simp
  | cons e es ih =>
    rw [List.map_cons]
    by_cases he : e.1 = k
    · rw [if_pos he, List.lookup_cons, List.lookup_cons]
      have h1 : (k2 == k) = false := by simpa [beq_eq_false_iff_ne] using h
      have h2 : (k2 == e.1) = false := by
        simp only [beq_eq_false_iff_ne, ne_eq]
        intro heq
        exact h (heq.trans he)
      rw [h1, h2, ih]
    · rw [if_neg he, List.lookup_cons, List.lookup_cons]
      by_cases hbeq : (k2 == e.1) = true
      · rw [hbeq]
      · rw [Bool.not_eq_true] at hbeq
        rw [hbeq, ih]

theorem lookup_jsMapSet_self {α : Type} (m : List (String × α)) (k : String) (v : α) :
    (jsMapSet m k v).lookup k = some v := by
  rw [jsMapSet]
  by_cases h : (m.lookup k).isSome
  · rw [if_pos h]
    exact lookup_replace_self v h
  · rw [if_neg h]
    have hnone : m.lookup k = none := by
      cases hm : m.lookup k
      · rfl
      · rw [hm] at h; simp at h
    rw [lookup_append_right hnone]
    simp [List.lookup_cons]

theorem lookup_jsMapSet_ne {α : Type} (m : List (String × α)) (k k2 : String) (v : α)
    (h : k2 ≠ k) : (jsMapSet m k v).lookup k2 = m.lookup k2 := by
  rw [jsMapSet]
  by_cases hs : (m.lookup k).isSome
  · rw [if_pos hs]
    exact lookup_replace_ne m k k2 v h
  · rw [if_neg hs, lookup_append]
    cases hm : m.lookup k2
    · have hbeq : (k2 == k) = false := by simpa [beq_eq_false_iff_ne] using h
      simp [List.lookup_cons, hbeq]
    · rfl

theorem lookup_mem {α : Type} {m : List (String × α)} {k : String} {v : α}
    (h : m.lookup k = some v) : (k, v) ∈ m := by
  induction m with
  | nil => simp at h
  | cons e es ih =>
    rw [List.lookup_cons] at h
    by_cases hbeq : (k == e.1) = true
    · rw [hbeq] at h
      have hk : k = e.1 := by simpa [beq_iff_eq] using hbeq
      have : e = (k, v) := by
        cases e with
        | mk k3 v3 =>
          simp at h hk
          simp [hk, h]
      rw [← this]
      exact List.mem_cons_self e es
    · rw [Bool.not_eq_true] at hbeq
      rw [hbeq] at h
      exact List.mem_cons_of_mem e (ih h)

theorem mem_foldl_jsSetAdd (l : List String) :
    ∀ (acc : List String) (x : String), x ∈ l.foldl jsSetAdd acc ↔ x ∈ acc ∨ x ∈ l := by
  induction l with
  | nil => simp
  | cons a as ih =>
    intro acc x
    rw [List.foldl_cons, ih]
    constructor
    · intro hx
      rcases hx with hx | hx
      · rw [jsSetAdd] at hx
        by_cases hc : acc.contains a
        · rw [if_pos hc] at hx
          exact Or.inl hx
        · rw [if_neg hc] at hx
          rcases List.mem_append.mp hx with hx | hx
          · exact Or.inl hx
          · right
            simp only [List.mem_singleton] at hx
            simp [hx]
      · right; exact List.mem_cons_of_mem a hx
    · intro hx
      rcases hx with hx | hx
      · left
        rw [jsSetAdd]
        by_cases hc : acc.contains a
        · rwa [if_pos hc]
        · rw [if_neg hc]
          exact List.mem_append.mpr (Or.inl hx)
      · rcases List.mem_cons.mp hx with rfl | hx
        · left
          rw [jsSetAdd]
          by_cases hc : acc.contains x
          · rw [if_pos hc]
            simpa using hc
          · rw [if_neg hc]
            simp
        · exact Or.inr hx

theorem nodup_foldl_jsSetAdd (l : List String) :
    ∀ (acc : List String), acc.Nodup → (l.foldl jsSetAdd acc).Nodup := by
  induction l with
  | nil => intro acc h; simpa using h
  | cons a as ih =>
    intro acc hacc
    rw [List.foldl_cons]
    apply ih
    rw [jsSetAdd]
    by_cases hc : acc.contains a
    · rwa [if_pos hc]
    · rw [if_neg hc]
      have hna : a ∉ acc := by simpa using hc
      simp [List.nodup_append, hacc, hna]

/-- C5: for every input, every net record emitted into the output network
section by the Network Stage contains at least one pin reference; a net entry
whose pin set is still empty after both reconstruction passes is never
emitted. -/
theorem c5_no_empty_nets (db : CircuitDb) (e : String × List String)
    (he : e ∈ addNetworkNets db) : e.2 ≠ [] := by
  unfold addNetworkNets at he
  have hmem := List.of_mem_filter he
  intro hnil
  rw [hnil] at hmem
  simp at hmem

/-- Records for a two-pad, one-trace circuit used to instantiate the network
stage theorems on a concrete input. -/
def netDbW : CircuitDb :=
  { pcb_boards := []
    pcb_components :=
      [⟨"c1", some "sc1", none, none, none, none, none⟩,
       ⟨"c2", some "sc2", none, none, none, none, none⟩]
    pcb_smtpads :=
      [⟨.rect 1 1, 0, 0, none, some "c1", some "pp1", none⟩,
       ⟨.rect 1 1, 0, 0, none, some "c2", some "pp2", none⟩]
    pcb_plated_holes := []
    pcb_ports := [⟨"pp1", "sp1"⟩, ⟨"pp2", "sp2"⟩]
    source_ports :=
      [⟨"sp1", some "sc1", some "pin1", some ["1"]⟩,
       ⟨"sp2", some "sc2", some "pin2", some ["2"]⟩]
    source_traces := [⟨some ["sp1", "sp2"], none⟩]
    source_nets := [] }

theorem c5_no_empty_nets_witness :
    ("Net-(c1-Pad1)", ["c1-1", "c2-2"]) ∈ addNetworkNets netDbW
    ∧ (("Net-(c1-Pad1)", ["c1-1", "c2-2"]) : String × List String).2 ≠ [] :=
  ⟨by decide, c5_no_empty_nets netDbW ("Net-(c1-Pad1)", ["c1-1", "c2-2"]) (by decide)⟩

/-- C7: with or without a board record, the Structure Stage writes exactly
one boundary path with layer tag "pcb" and stroke width 0; it has exactly 10
coordinate numbers whose last point repeats the first; the corners are
center ± half-extent in the order top-left, top-right, bottom-right,
bottom-left, each mapped through the scale-1000 transform; and without a board record
the half-extent is 50000 output units in both axes. -/
theorem c7_structure_boundary (pcbBoard : Option PcbBoard) :
    (addStructureBoundary pcbBoard).paths = [⟨"pcb", 0, boundaryCoordinates pcbBoard⟩]
    ∧ (boundaryCoordinates pcbBoard).length = 10
    ∧ (boundaryCoordinates pcbBoard).take 2 = (boundaryCoordinates pcbBoard).drop 8
    ∧ boundaryCoordinates pcbBoard =
        [1000 * (((pcbBoard.bind (·.center)).map Point.x).getD 0
            - (pcbBoard.bind (·.width)).getD 100 / 2),
         1000 * (((pcbBoard.bind (·.center)).map Point.y).getD 0
            - (pcbBoard.bind (·.height)).getD 100 / 2),
         1000 * (((pcbBoard.bind (·.center)).map Point.x).getD 0
            + (pcbBoard.bind (·.width)).getD 100 / 2),
         1000 * (((pcbBoard.bind (·.center)).map Point.y).getD 0
            - (pcbBoard.bind (·.height)).getD 100 / 2),
         1000 * (((pcbBoard.bind (·.center)).map Point.x).getD 0
            + (pcbBoard.bind (·.width)).getD 100 / 2),
         1000 * (((pcbBoard.bind (·.center)).map Point.y).getD 0
            + (pcbBoard.bind (·.height)).getD 100 / 2),
         1000 * (((pcbBoard.bind (·.center)).map Point.x).getD 0
            - (pcbBoard.bind (·.width)).getD 100 / 2),
         1000 * (((pcbBoard.bind (·.center)).map Point.y).getD 0
            + (pcbBoard.bind (·.height)).getD 100 / 2),
         1000 * (((pcbBoard.bind (·.center)).map Point.x).getD 0
            - (pcbBoard.bind (·.width)).getD 100 / 2),
         1000 * (((pcbBoard.bind (·.center)).map Point.y).getD 0
            - (pcbBoard.bind (·.height)).getD 100 / 2)]
    ∧ (pcbBoard = none → boundaryCoordinates pcbBoard =
        [-50000, -50000, 50000, -50000, 50000, 50000, -50000, 50000, -50000, -50000]) := by
  refine ⟨rfl, rfl, ?_, ?_, ?_⟩
  · simp [boundaryCoordinates, boundaryCorners, transformPoint]
  · simp [boundaryCoordinates, boundaryCorners, transformPoint]
  · intro hb
    subst hb
    simp [boundaryCoordinates, boundaryCorners, transformPoint]
    norm_num

theorem c7_structure_boundary_witness :
    (addStructureBoundary none).paths = [⟨"pcb", 0, boundaryCoordinates none⟩]
    ∧ boundaryCoordinates none =
        [-50000, -50000, 50000, -50000, 50000, 50000, -50000, 50000, -50000, -50000] :=
  ⟨(c7_structure_boundary none).1, (c7_structure_boundary none).2.2.2.2 rfl⟩

/-- C8: if the Placement Stage runs while the component→footprint-name map
is absent from the shared context, it raises an error and never returns an
updated document. -/
theorem c8_placement_requires_library (ctx : ConverterContext)
    (h : ctx.componentToFootprintName = none) :
    (∃ e, addPlacementStep ctx = Except.error e)
    ∧ ∀ r, addPlacementStep ctx ≠ Except.ok r := by
  have herr : ∃ e, addPlacementStep ctx = Except.error e := by
    cases hdsn : ctx.spectraDsn with
    | none =>
      exact ⟨"SpectraDsn instance not initialized in context",
        by simp [addPlacementStep, hdsn]⟩
    | some dsn =>
      cases hpl : dsn.placement with
      | none =>
        exact ⟨"DsnPlacement not initialized in SpectraDsn",
          by simp [addPlacementStep, hdsn, hpl]⟩
      | some p =>
        cases htr : ctx.circuitJsonToDsnTransformMatrix with
        | none =>
          exact ⟨"Transform matrix not initialized in context",
            by simp [addPlacementStep, hdsn, hpl, htr]⟩
        | some u =>
          exact ⟨"componentToFootprintName not initialized in context (AddLibraryStage must run first)",
            by simp [addPlacementStep, hdsn, hpl, htr, h]⟩
  refine ⟨herr, ?_⟩
  intro r hok
  obtain ⟨e, he⟩ := herr
  rw [he] at hok
  exact Except.noConfusion hok

def emptyDbW : CircuitDb := ⟨[], [], [], [], [], [], [], []⟩

theorem c8_placement_requires_library_witness :
    (initialConverter emptyDbW).ctx.componentToFootprintName = none
    ∧ (∃ e, addPlacementStep (initialConverter emptyDbW).ctx = Except.error e)
    ∧ ∀ r, addPlacementStep (initialConverter emptyDbW).ctx ≠ Except.ok r :=
  ⟨rfl, (c8_placement_requires_library (initialConverter emptyDbW).ctx rfl).1,
    (c8_placement_requires_library (initialConverter emptyDbW).ctx rfl).2⟩

/-- C6 (amended): the padstack created for a plated hole carries its shape
replicated on both copper layers; the padstack created for a surface-mount
pad carries a shape only on the layer the pad occupies (bottom selects layer
"2", anything else layer "1"). -/
theorem c6_padstack_layers (platedHole : PcbPlatedHole) (smtPad : PcbSmtPad)
    (holeId padId : String) :
    (∃ prim, (createPadstackForPlatedHole platedHole holeId).shapes
        = [⟨"1", prim⟩, ⟨"2", prim⟩])
    ∧ (∃ prim, (createPadstackForSmtPad smtPad padId).shapes
        = [⟨smtPadLayerNum smtPad, prim⟩])
    ∧ smtPadLayerNum smtPad
        = (if smtPad.layer.getD "top" = "bottom" then "2" else "1") := by
  refine ⟨⟨platedHolePrim platedHole, rfl⟩, ?_, rfl⟩
  cases smtPad with
  | mk shape x y layer cid pid rot => cases shape <;> exact ⟨_, rfl⟩

def padTopW : PcbSmtPad := ⟨.rect 1 2, 0, 0, some "top", some "c1", none, none⟩

def padBottomW : PcbSmtPad := ⟨.rect 1 2, 0, 0, some "bottom", some "c2", none, none⟩

/-- C6 counterexample (to the claim as stated): padstack ids ignore the
layer, so a bottom-side pad of the same shape and size as an earlier
top-side pad reuses the top-side padstack — the padstack it references has
its only shape on layer "1" although the pad occupies the bottom layer. -/
theorem c6_counterexample :
    (ensurePadstackForSmtPad padBottomW
        (ensurePadstackForSmtPad padTopW [] []).2.1
        (ensurePadstackForSmtPad padTopW [] []).2.2).1
      = (ensurePadstackForSmtPad padTopW [] []).1
    ∧ (ensurePadstackForSmtPad padBottomW
        (ensurePadstackForSmtPad padTopW [] []).2.1
        (ensurePadstackForSmtPad padTopW [] []).2.2).2.2
      = [createPadstackForSmtPad padTopW (smtPadPadstackId padTopW)]
    ∧ (createPadstackForSmtPad padTopW (smtPadPadstackId padTopW)).shapes.map DsnShapeM.layer
      = ["1"]
    ∧ smtPadLayerNum padBottomW = "2" := by
  have hid : smtPadPadstackId padBottomW = smtPadPadstackId padTopW := rfl
  have hcontains : ((ensurePadstackForSmtPad padTopW [] []).2.1).contains
      (smtPadPadstackId padBottomW) = true := by
    rw [hid]
    show (List.contains (if ([] : List String).contains (smtPadPadstackId padTopW)
      then [] else [] ++ [smtPadPadstackId padTopW]) _) = true
    simp [ensurePadstackForSmtPad]
  refine ⟨?_, ?_, rfl, rfl⟩
  · rw [ensurePadstackForSmtPad]
    simp only [hcontains, if_pos]
    exact hid
  · rw [ensurePadstackForSmtPad]
    simp only [hcontains, if_pos]
    show (ensurePadstackForSmtPad padTopW [] []).2.2 = _
    rw [ensurePadstackForSmtPad]
    simp [ensurePadstackForSmtPad]

/-- Modelled from the amended claim: the pin identifier is the first port
hint that parses as a number provided that hint is non-empty (an empty
numeric hint falls through), else the port's name when present and
non-empty, else the literal "1". -/
def specPinIdAmended (sp : SourcePort) : String :=
  match (sp.port_hints.getD []).find? (fun h => !(jsNumberIsNaN h)) with
  | some s =>
    if s = "" then
      match sp.name with
      | some n => if n = "" then "1" else n
      | none => "1"
    else s
  | none =>
    match sp.name with
    | some n => if n = "" then "1" else n
    | none => "1"

/-- C4 (amended): the Library Stage pin-id derivation and the Network Stage
pin-number derivation agree on every source port, and both equal the
fallback chain with the empty-string provisos made explicit. -/
theorem c4_pin_id_consistency (sp : SourcePort) :
    libPinIdOfSourcePort sp = netPinNumberOfSourcePort sp
    ∧ libPinIdOfSourcePort sp = specPinIdAmended sp :=
  ⟨rfl, rfl⟩

def spEmptyHintW : SourcePort := ⟨"sp0", some "sc0", some "", some [""]⟩

/-- C4 counterexample (to the claim as stated): an empty string parses as a
number under JavaScript `Number` (it converts to 0), so the spec's fallback
chain would produce `""` here, but both code sites skip the falsy hint and
the falsy name and produce "1". -/
theorem c4_counterexample :
    libPinIdOfSourcePort spEmptyHintW = "1"
    ∧ netPinNumberOfSourcePort spEmptyHintW = "1"
    ∧ specPinIdOfSourcePort spEmptyHintW = ""
    ∧ libPinIdOfSourcePort spEmptyHintW ≠ specPinIdOfSourcePort spEmptyHintW := by
  refine ⟨?_, ?_, ?_, ?_⟩ <;> decide

theorem processTrace_pos (idx : List (String × PadInfo)) (m : NetMap) (t : SourceTrace)
    (p0 : String) (fp : PadInfo)
    (hhead : (t.connected_source_port_ids.getD []).head? = some p0)
    (hlen : 2 ≤ (t.connected_source_port_ids.getD []).length)
    (hne : p0 ≠ "")
    (hlook : idx.lookup p0 = some fp) :
    processTrace idx m t
      = addPinsToNet (ensureNet m (traceNetName fp)) (traceNetName fp) (traceRefs idx t) := by
  rw [processTrace]
  simp only [hhead]
  rw [if_pos ⟨hlen, hne⟩, hlook]

theorem processTrace_skip (idx : List (String × PadInfo)) (m : NetMap) (t : SourceTrace)
    (h : ∀ p0, (t.connected_source_port_ids.getD []).head? = some p0 →
      p0 = "" ∨ idx.lookup p0 = none) :
    processTrace idx m t = m := by
  cases hhead : (t.connected_source_port_ids.getD []).head? with
  | none =>
    rw [processTrace]
    simp only [hhead]
  | some p0 =>
    rw [processTrace]
    simp only [hhead]
    rcases h p0 hhead with hp | hp
    · rw [if_neg]
      intro hcond
      exact hcond.2 hp
    · by_cases hcond : 2 ≤ (t.connected_source_port_ids.getD []).length ∧ p0 ≠ ""
      · rw [if_pos hcond, hp]
      · rw [if_neg hcond]

/-- C2 (amended): a trace with at least two connected ports whose first port
id is non-empty and resolves through the pad index produces exactly one net,
named after that first resolved pad, whose pin set is the deduplicated pad
references of all resolvable connected ports; a trace whose first connected
port is empty or does not resolve contributes nothing, even when later ports
would resolve. -/
theorem c2_trace_nets :
    (∀ (idx : List (String × PadInfo)) (t : SourceTrace) (p0 : String) (fp : PadInfo),
      (t.connected_source_port_ids.getD []).head? = some p0 →
      2 ≤ (t.connected_source_port_ids.getD []).length →
      p0 ≠ "" →
      idx.lookup p0 = some fp →
      ∃ pins, tracePass idx [t] [] = [(traceNetName fp, pins)]
        ∧ pins.Nodup ∧ ∀ r, r ∈ pins ↔ r ∈ traceRefs idx t)
    ∧ (∀ (idx : List (String × PadInfo)) (m : NetMap) (t : SourceTrace),
      (∀ p0, (t.connected_source_port_ids.getD []).head? = some p0 →
        p0 = "" ∨ idx.lookup p0 = none) →
      processTrace idx m t = m) := by
  constructor
  · intro idx t p0 fp hhead hlen hne hlook
    have hstep : tracePass idx [t] []
        = addPinsToNet (ensureNet [] (traceNetName fp)) (traceNetName fp) (traceRefs idx t) := by
      rw [tracePass, List.foldl_cons, List.foldl_nil]
      exact processTrace_pos idx [] t p0 fp hhead hlen hne hlook
    have hens : ensureNet [] (traceNetName fp) = [(traceNetName fp, [])] := by
      rw [ensureNet]
      simp
    refine ⟨(traceRefs idx t).foldl jsSetAdd [], ?_, ?_, ?_⟩
    · rw [hstep, hens, addPinsToNet]
      simp
    · exact nodup_foldl_jsSetAdd _ [] List.nodup_nil
    · intro r
      rw [mem_foldl_jsSetAdd]
      simp
  · exact processTrace_skip

def idxW : List (String × PadInfo) := padsBySourcePortId netDbW

def traceW : SourceTrace := ⟨some ["sp1", "sp2"], none⟩

def traceBadW : SourceTrace := ⟨some ["spX", "sp2"], none⟩

theorem c2_trace_nets_witness :
    (∃ pins, tracePass idxW [traceW] [] = [(traceNetName ⟨"c1", "1", "sp1"⟩, pins)]
      ∧ pins.Nodup ∧ ∀ r, r ∈ pins ↔ r ∈ traceRefs idxW traceW)
    ∧ processTrace idxW [] traceBadW = [] :=
  ⟨c2_trace_nets.1 idxW traceW "sp1" ⟨"c1", "1", "sp1"⟩ (by decide) (by decide)
      (by decide) (by decide),
    c2_trace_nets.2 idxW [] traceBadW
      (by
        intro p0 hp
        right
        have : p0 = "spX" := by
          have : some p0 = some "spX" := by
            rw [← hp]; decide
          simpa using this
        rw [this]
        decide)⟩

/-- C10: two traces whose first (non-empty, resolvable) connected ports
resolve to the same pad are merged into one single net entry under the
shared anchor-derived name within the trace pass itself, with all pad
references of both traces deduplicated into the one pin set. -/
theorem c10_trace_merge (idx : List (String × PadInfo)) (t1 t2 : SourceTrace)
    (p1 p2 : String) (fp : PadInfo)
    (h1head : (t1.connected_source_port_ids.getD []).head? = some p1)
    (h1len : 2 ≤ (t1.connected_source_port_ids.getD []).length)
    (h1ne : p1 ≠ "")
    (h1look : idx.lookup p1 = some fp)
    (h2head : (t2.connected_source_port_ids.getD []).head? = some p2)
    (h2len : 2 ≤ (t2.connected_source_port_ids.getD []).length)
    (h2ne : p2 ≠ "")
    (h2look : idx.lookup p2 = some fp) :
    ∃ pins, tracePass idx [t1, t2] [] = [(traceNetName fp, pins)]
      ∧ pins.Nodup
      ∧ ∀ r, r ∈ pins ↔ (r ∈ traceRefs idx t1 ∨ r ∈ traceRefs idx t2) := by
  have hstep1 : processTrace idx [] t1
      = [(traceNetName fp, (traceRefs idx t1).foldl jsSetAdd [])] := by
    rw [processTrace_pos idx [] t1 p1 fp h1head h1len h1ne h1look]
    rw [ensureNet]
    simp [addPinsToNet]
  have hstep2 : processTrace idx [(traceNetName fp, (traceRefs idx t1).foldl jsSetAdd [])] t2
      = [(traceNetName fp,
          (traceRefs idx t2).foldl jsSetAdd ((traceRefs idx t1).foldl jsSetAdd []))] := by
    rw [processTrace_pos idx _ t2 p2 fp h2head h2len h2ne h2look]
    rw [ensureNet]
    simp [addPinsToNet, List.lookup_cons]
  refine ⟨(traceRefs idx t2).foldl jsSetAdd ((traceRefs idx t1).foldl jsSetAdd []), ?_, ?_, ?_⟩
  · rw [tracePass, List.foldl_cons, List.foldl_cons, List.foldl_nil, hstep1, hstep2]
  · exact nodup_foldl_jsSetAdd _ _ (nodup_foldl_jsSetAdd _ [] List.nodup_nil)
  · intro r
    rw [mem_foldl_jsSetAdd, mem_foldl_jsSetAdd]
    simp [or_comm]

def traceRepW : SourceTrace := ⟨some ["sp1", "sp1"], none⟩

theorem c10_trace_merge_witness :
    ∃ pins, tracePass idxW [traceW, traceRepW] []
        = [(traceNetName ⟨"c1", "1", "sp1"⟩, pins)]
      ∧ pins.Nodup
      ∧ ∀ r, r ∈ pins ↔ (r ∈ traceRefs idxW traceW ∨ r ∈ traceRefs idxW traceRepW) :=
  c10_trace_merge idxW traceW traceRepW "sp1" "sp1" ⟨"c1", "1", "sp1"⟩
    (by decide) (by decide) (by decide) (by decide)
    (by decide) (by decide) (by decide) (by decide)

/-- C1 (amended): two signature strings are equal exactly when the
components' pads and holes have the same multiset of quantized descriptors:
shape class with the code's collapses (rect with rotated-rect, pill with
rotated-pill, oval with pill holes; polygon point lists and
circular-hole-with-rect-pad dimensions are ignored), dimensions and
positions relative to the component origin rounded to integer micrometers. -/
theorem c1_signature_iff (c1 c2 : PcbComponent) (p1 p2 : List PcbSmtPad)
    (h1 h2 : List PcbPlatedHole) :
    generateFootprintSignature p1 h1 c1 = generateFootprintSignature p2 h2 c2 ↔
      Multiset.map roundGeom ↑(exactGeoms c1 p1 h1)
        = Multiset.map roundGeom ↑(exactGeoms c2 p2 h2) := by
  rw [generateFootprintSignature_eq_iff, Multiset.map_coe, Multiset.map_coe,
    ← sigEntries_eq_map_roundGeom, ← sigEntries_eq_map_roundGeom]

def compW : PcbComponent := ⟨"c1", none, none, none, none, none, none⟩

def padRectW : PcbSmtPad := ⟨.rect 1 1, 0, 0, none, some "c1", none, none⟩

def padRotRectW : PcbSmtPad := ⟨.rotated_rect 1 1, 0, 0, none, some "c1", none, none⟩

/-- C1 counterexample (to the claim as stated): a `rect` pad and a
`rotated_rect` pad of the same size collapse to the same `r:` descriptor, so
the signatures coincide although the shape classes differ — the components
are not geometrically identical. -/
theorem c1_counterexample :
    generateFootprintSignature [padRectW] [] compW
      = generateFootprintSignature [padRotRectW] [] compW
    ∧ ¬ GeomIdentical compW [padRectW] [] compW [padRotRectW] [] := by
  constructor
  · rfl
  · intro h
    simp [GeomIdentical, exactGeoms, exactPadGeom, compW, padRectW, padRotRectW] at h

/-- Records in which the resolvable chain ends at a source port whose id is
the empty string, so the pad index contains the key `""`. -/
def netDbEmptyIdW : CircuitDb :=
  { pcb_boards := []
    pcb_components :=
      [⟨"c1", some "sc1", none, none, none, none, none⟩,
       ⟨"c2", some "sc2", none, none, none, none, none⟩]
    pcb_smtpads :=
      [⟨.rect 1 1, 0, 0, none, some "c1", some "pp1", none⟩,
       ⟨.rect 1 1, 0, 0, none, some "c2", some "pp2", none⟩]
    pcb_plated_holes := []
    pcb_ports := [⟨"pp1", ""⟩, ⟨"pp2", "sp2"⟩]
    source_ports :=
      [⟨"", some "sc1", some "pin1", some ["1"]⟩,
       ⟨"sp2", some "sc2", some "pin2", some ["2"]⟩]
    source_traces := [⟨some ["", "sp2"], none⟩]
    source_nets := [] }

/-- C2 counterexample (to the claim as stated): the trace's first connected
port is the empty string, which resolves through the pad index, and the
trace has two connected ports — yet the trace pass produces no net at all,
because the code also requires the first port id to be truthy. -/
theorem c2_counterexample :
    (padsBySourcePortId netDbEmptyIdW).lookup "" = some ⟨"c1", "1", ""⟩
    ∧ 2 ≤ ((⟨some ["", "sp2"], none⟩ : SourceTrace).connected_source_port_ids.getD []).length
    ∧ tracePass (padsBySourcePortId netDbEmptyIdW) netDbEmptyIdW.source_traces [] = []
    ∧ addNetworkNets netDbEmptyIdW = [] := by
  refine ⟨?_, ?_, ?_, ?_⟩ <;> decide

/-! Library-stage naming and deduplication (claim C3). -/

theorem generateFootprintName_form (smtPads : List PcbSmtPad)
    (platedHoles : List PcbPlatedHole) (component : PcbComponent) (counter : ℕ) :
    ∃ pre, generateFootprintName smtPads platedHoles component counter
      = pre ++ "_" ++ natStr counter := by
  rw [generateFootprintName]
  by_cases hwh : 0 < jsRound ((component.width.getD 0) * 1000)
      ∧ 0 < jsRound ((component.height.getD 0) * 1000)
  · rw [if_pos hwh]
    exact ⟨"footprint_" ++ intStr (jsRound ((component.width.getD 0) * 1000))
      ++ "x" ++ intStr (jsRound ((component.height.getD 0) * 1000)), rfl⟩
  · rw [if_neg hwh]
    refine ⟨"footprint_" ++ natStr (smtPads.length + platedHoles.length) ++ "pin", ?_⟩
    apply String.ext
    simp [String.data_append]

theorem natStr_rev_no_underscore (k : ℕ) :
    ∀ x ∈ (natStr k).data.reverse, x ≠ '_' := by
  intro x hx heq
  rw [List.mem_reverse] at hx
  have := natStr_chars hx
  subst heq
  rw [show ('_' : Char).toNat = 95 from rfl] at this
  omega

/-- Two footprint names with the digit-only counter suffix agree only when
the counters agree (split the name at the last underscore). -/
theorem name_counter_inj {a b : String} {k1 k2 : ℕ}
    (h : a ++ "_" ++ natStr k1 = b ++ "_" ++ natStr k2) : k1 = k2 := by
  have hdata := congrArg (fun s => s.data.reverse) h
  simp only [String.data_append, List.reverse_append] at hdata
  have hsplit : (natStr k1).data.reverse ++ '_' :: a.data.reverse
      = (natStr k2).data.reverse ++ '_' :: b.data.reverse := by
    simpa using hdata
  obtain ⟨h1, _⟩ := append_sep_inj
    (natStr_rev_no_underscore k1) (natStr_rev_no_underscore k2) hsplit
  have : (natStr k1).data = (natStr k2).data := by
    have := congrArg List.reverse h1
    simpa using this
  exact natStr_injective (String.ext this)

/-- Signature of one component against the whole record store. -/
def componentSig (db : CircuitDb) (comp : PcbComponent) : String :=
  generateFootprintSignature (padsOfComponent db comp.pcb_component_id)
    (holesOfComponent db comp.pcb_component_id) comp

/-- Negation of the skip condition of `AddLibraryStage._step`. -/
def componentHasPads (db : CircuitDb) (comp : PcbComponent) : Prop :=
  ¬((padsOfComponent db comp.pcb_component_id).length = 0
    ∧ (holesOfComponent db comp.pcb_component_id).length = 0)

instance (db : CircuitDb) (comp : PcbComponent) : Decidable (componentHasPads db comp) := by
  unfold componentHasPads
  infer_instance

/-- Loop invariant of `AddLibraryStage._step`: the counter tracks the number
of distinct footprints, the i-th created footprint name carries counter i as
its digit suffix, and every processed component with pads is mapped to the
name stored for its signature. -/
structure LibInv (db : CircuitDb) (processed : List PcbComponent) (st : LibState) : Prop where
  counter_eq : st.footprintCounter = st.sigToName.length
  names_indexed : ∀ i (hi : i < st.sigToName.length),
    ∃ pre, (st.sigToName.get ⟨i, hi⟩).2 = pre ++ "_" ++ natStr i
  comp_assigned : ∀ c ∈ processed, componentHasPads db c →
    ∃ n, st.sigToName.lookup (componentSig db c) = some n
      ∧ st.compMap.lookup c.pcb_component_id = some n

theorem libInv_init (db : CircuitDb) : LibInv db [] initLibState := by
  refine ⟨rfl, ?_, ?_⟩
  · intro i hi
    simp [initLibState] at hi
  · intro c hc
    simp at hc

theorem libInv_step (db : CircuitDb) (processed : List PcbComponent) (st : LibState)
    (c : PcbComponent) (hinv : LibInv db processed st)
    (hfresh : ∀ c2 ∈ processed, c2.pcb_component_id ≠ c.pcb_component_id) :
    LibInv db (processed ++ [c]) (processComponent db st c) := by
  simp only [processComponent]
  by_cases hskip : (padsOfComponent db c.pcb_component_id).length = 0
      ∧ (holesOfComponent db c.pcb_component_id).length = 0
  · rw [if_pos hskip]
    refine ⟨hinv.counter_eq, hinv.names_indexed, ?_⟩
    intro c2 hc2 hpads
    rcases List.mem_append.mp hc2 with hc2 | hc2
    · exact hinv.comp_assigned c2 hc2 hpads
    · have : c2 = c := by simpa using hc2
      subst this
      exact absurd hskip hpads
  · rw [if_neg hskip]
    cases hlook : st.sigToName.lookup
        (generateFootprintSignature (padsOfComponent db c.pcb_component_id)
          (holesOfComponent db c.pcb_component_id) c) with
    | some existingName =>
      refine ⟨hinv.counter_eq, hinv.names_indexed, ?_⟩
      intro c2 hc2 hpads
      rcases List.mem_append.mp hc2 with hc2 | hc2
      · obtain ⟨n, hs, hm⟩ := hinv.comp_assigned c2 hc2 hpads
        exact ⟨n, hs, by
          rw [lookup_jsMapSet_ne _ _ _ _ (hfresh c2 hc2)]
          exact hm⟩
      · have : c2 = c := by simpa using hc2
        subst this
        exact ⟨existingName, hlook, lookup_jsMapSet_self _ _ _⟩
    | none =>
      constructor
      · simp [hinv.counter_eq]
      · intro i hi
        have hlen : i < st.sigToName.length + 1 := by
          simpa using hi
        by_cases hilt : i < st.sigToName.length
        · obtain ⟨pre, hpre⟩ := hinv.names_indexed i hilt
          refine ⟨pre, ?_⟩
          rw [List.get_eq_getElem, List.getElem_append_left hilt, ← List.get_eq_getElem _ ⟨i, hilt⟩]
          exact hpre
        · have hieq : i = st.sigToName.length := by omega
          subst hieq
          obtain ⟨pre, hpre⟩ := generateFootprintName_form
            (padsOfComponent db c.pcb_component_id)
            (holesOfComponent db c.pcb_component_id) c st.footprintCounter
          refine ⟨pre, ?_⟩
          rw [List.get_eq_getElem, List.getElem_append_right (le_refl st.sigToName.length)]
          simp only [Nat.sub_self, List.getElem_cons_zero]
          rw [hpre, hinv.counter_eq]
      · intro c2 hc2 hpads
        rcases List.mem_append.mp hc2 with hc2 | hc2
        · obtain ⟨n, hs, hm⟩ := hinv.comp_assigned c2 hc2 hpads
          refine ⟨n, lookup_append_left hs _, ?_⟩
          rw [lookup_jsMapSet_ne _ _ _ _ (hfresh c2 hc2)]
          exact hm
        · have hceq : c2 = c := by simpa using hc2
          subst hceq
          refine ⟨_, ?_, lookup_jsMapSet_self _ _ _⟩
          rw [componentSig, lookup_append_right hlook]
          simp

theorem libInv_foldl (db : CircuitDb) :
    ∀ (cs processed : List PcbComponent) (st : LibState),
      LibInv db processed st →
      ((processed ++ cs).map (·.pcb_component_id)).Nodup →
      LibInv db (processed ++ cs) (cs.foldl (processComponent db) st) := by
  intro cs
  induction cs with
  | nil =>
    intro processed st hinv _
    simpa using hinv
  | cons c cs ih =>
    intro processed st hinv hnodup
    rw [List.foldl_cons]
    have hfresh : ∀ c2 ∈ processed, c2.pcb_component_id ≠ c.pcb_component_id := by
      intro c2 hc2 heq
      rw [List.map_append] at hnodup
      have hdisj := List.disjoint_of_nodup_append hnodup
      apply hdisj (a := c2.pcb_component_id)
      · exact List.mem_map_of_mem _ hc2
      · rw [heq]
        exact List.mem_map_of_mem _ (List.mem_cons_self c cs)
    have hstep := libInv_step db processed st c hinv hfresh
    have hres := ih (processed ++ [c]) (processComponent db st c) hstep
      (by simpa using hnodup)
    simpa using hres

theorem addLibraryState_inv (db : CircuitDb)
    (hids : (db.pcb_components.map (·.pcb_component_id)).Nodup) :
    LibInv db db.pcb_components (addLibraryState db) := by
  have := libInv_foldl db db.pcb_components [] initLibState (libInv_init db)
    (by simpa using hids)
  simpa [addLibraryState] using this

/-- C3 (amended): on a record store with distinct component ids, two
components with pads whose exact pad/hole layouts agree as a multiset (in
any declaration order) are assigned the same footprint name, and two
components whose layouts differ after the signature's micrometer
quantization and shape-class collapsing are assigned distinct footprint
names. -/
theorem c3_footprint_dedup (db : CircuitDb)
    (hids : (db.pcb_components.map (·.pcb_component_id)).Nodup)
    (c1 c2 : PcbComponent)
    (hc1 : c1 ∈ db.pcb_components) (hc2 : c2 ∈ db.pcb_components)
    (hp1 : componentHasPads db c1) (hp2 : componentHasPads db c2) :
    (GeomIdentical c1 (padsOfComponent db c1.pcb_component_id)
        (holesOfComponent db c1.pcb_component_id)
        c2 (padsOfComponent db c2.pcb_component_id)
        (holesOfComponent db c2.pcb_component_id) →
      ∃ nm, (addLibraryState db).compMap.lookup c1.pcb_component_id = some nm
        ∧ (addLibraryState db).compMap.lookup c2.pcb_component_id = some nm)
    ∧ (Multiset.map roundGeom ↑(exactGeoms c1 (padsOfComponent db c1.pcb_component_id)
          (holesOfComponent db c1.pcb_component_id))
        ≠ Multiset.map roundGeom ↑(exactGeoms c2 (padsOfComponent db c2.pcb_component_id)
          (holesOfComponent db c2.pcb_component_id)) →
      ∃ n1 n2, (addLibraryState db).compMap.lookup c1.pcb_component_id = some n1
        ∧ (addLibraryState db).compMap.lookup c2.pcb_component_id = some n2
        ∧ n1 ≠ n2) := by
  have hinv := addLibraryState_inv db hids
  have hsig_iff : componentSig db c1 = componentSig db c2 ↔
      Multiset.map roundGeom ↑(exactGeoms c1 (padsOfComponent db c1.pcb_component_id)
          (holesOfComponent db c1.pcb_component_id))
        = Multiset.map roundGeom ↑(exactGeoms c2 (padsOfComponent db c2.pcb_component_id)
          (holesOfComponent db c2.pcb_component_id)) := by
    rw [componentSig, componentSig, generateFootprintSignature_eq_iff,
      sigEntries_eq_map_roundGeom, sigEntries_eq_map_roundGeom,
      Multiset.map_coe, Multiset.map_coe]
  constructor
  · intro hgeom
    have hsig : componentSig db c1 = componentSig db c2 := by
      rw [hsig_iff]
      exact congrArg (Multiset.map roundGeom) hgeom
    obtain ⟨n1, hs1, hm1⟩ := hinv.comp_assigned c1 hc1 hp1
    obtain ⟨n2, hs2, hm2⟩ := hinv.comp_assigned c2 hc2 hp2
    rw [hsig, hs2] at hs1
    refine ⟨n1, hm1, ?_⟩
    rw [← Option.some_inj.mp hs1]
    exact hm2
  · intro hdiff
    have hsig : componentSig db c1 ≠ componentSig db c2 := by
      intro heq
      exact hdiff (hsig_iff.mp heq)
    obtain ⟨n1, hs1, hm1⟩ := hinv.comp_assigned c1 hc1 hp1
    obtain ⟨n2, hs2, hm2⟩ := hinv.comp_assigned c2 hc2 hp2
    refine ⟨n1, n2, hm1, hm2, ?_⟩
    intro heqn
    have hmem1 := lookup_mem hs1
    have hmem2 := lookup_mem hs2
    obtain ⟨⟨i, hi⟩, hget1⟩ := List.mem_iff_get.mp hmem1
    obtain ⟨⟨j, hj⟩, hget2⟩ := List.mem_iff_get.mp hmem2
    obtain ⟨pre1, hpre1⟩ := hinv.names_indexed i hi
    obtain ⟨pre2, hpre2⟩ := hinv.names_indexed j hj
    have hn1 : n1 = pre1 ++ "_" ++ natStr i := by
      rw [← hpre1, hget1]
    have hn2 : n2 = pre2 ++ "_" ++ natStr j := by
      rw [← hpre2, hget2]
    have hij : i = j := by
      apply name_counter_inj (a := pre1) (b := pre2)
      rw [← hn1, ← hn2, heqn]
    apply hsig
    have : (addLibraryState db).sigToName.get ⟨i, hi⟩
        = (addLibraryState db).sigToName.get ⟨j, hj⟩ := by
      congr 1
      exact Fin.ext hij
    rw [hget1, hget2] at this
    exact congrArg Prod.fst this

def compAW : PcbComponent := ⟨"a", none, none, none, none, none, none⟩

def compBW : PcbComponent := ⟨"b", none, none, none, none, none, none⟩

def compCW : PcbComponent := ⟨"c", none, none, none, none, none, none⟩

def padA1W : PcbSmtPad := ⟨.rect 1 1, 0, 0, none, some "a", none, none⟩

def padA2W : PcbSmtPad := ⟨.rect 2 1, 3, 0, none, some "a", none, none⟩

def padB2W : PcbSmtPad := ⟨.rect 2 1, 3, 0, none, some "b", none, none⟩

def padB1W : PcbSmtPad := ⟨.rect 1 1, 0, 0, none, some "b", none, none⟩

def padCW : PcbSmtPad := ⟨.pill 1 1, 0, 0, none, some "c", none, none⟩

/-- Three components: `a` and `b` carry the same two pads declared in
opposite orders, `c` carries a single pill pad. -/
def libDbW : CircuitDb :=
  ⟨[], [compAW, compBW, compCW], [padA1W, padA2W, padB2W, padB1W, padCW], [], [], [], [], []⟩

theorem c3_footprint_dedup_witness :
    (∃ nm, (addLibraryState libDbW).compMap.lookup "a" = some nm
      ∧ (addLibraryState libDbW).compMap.lookup "b" = some nm)
    ∧ (∃ n1 n2, (addLibraryState libDbW).compMap.lookup "a" = some n1
      ∧ (addLibraryState libDbW).compMap.lookup "c" = some n2 ∧ n1 ≠ n2) := by
  constructor
  · refine (c3_footprint_dedup libDbW (by decide) compAW compBW (by decide) (by decide)
      (by decide) (by decide)).1 ?_
    show (↑(exactGeoms compAW [padA1W, padA2W] []) : Multiset PadGeom)
      = ↑(exactGeoms compBW [padB2W, padB1W] [])
    exact Multiset.coe_eq_coe.mpr
      (List.Perm.swap (exactPadGeom compAW padA2W) (exactPadGeom compAW padA1W) [])
  · refine (c3_footprint_dedup libDbW (by decide) compAW compCW (by decide) (by decide)
      (by decide) (by decide)).2 ?_
    intro h
    have hc := congrArg Multiset.card h
    have h1 : padsOfComponent libDbW compAW.pcb_component_id = [padA1W, padA2W] := rfl
    have h2 : padsOfComponent libDbW compCW.pcb_component_id = [padCW] := rfl
    have h3 : holesOfComponent libDbW compAW.pcb_component_id = [] := rfl
    have h4 : holesOfComponent libDbW compCW.pcb_component_id = [] := rfl
    rw [h1, h2, h3, h4] at hc
    simp [exactGeoms] at hc

def padRotBW : PcbSmtPad := ⟨.rotated_rect 1 1, 0, 0, none, some "b", none, none⟩

/-- Component `a` with a `rect` pad and component `b` with a `rotated_rect`
pad of the same size at the same position. -/
def libDb2W : CircuitDb :=
  ⟨[], [compAW, compBW], [padA1W, padRotBW], [], [], [], [], []⟩

/-- C3 counterexample (to the claim as stated): component `b`'s exact pad
layout differs from component `a`'s (different shape classes), yet the
Library Stage assigns both the same footprint name, because the signature
collapses `rect` and `rotated_rect`. -/
theorem c3_counterexample :
    ¬ GeomIdentical compAW (padsOfComponent libDb2W compAW.pcb_component_id)
        (holesOfComponent libDb2W compAW.pcb_component_id)
        compBW (padsOfComponent libDb2W compBW.pcb_component_id)
        (holesOfComponent libDb2W compBW.pcb_component_id)
    ∧ ∃ nm, (addLibraryState libDb2W).compMap.lookup "a" = some nm
        ∧ (addLibraryState libDb2W).compMap.lookup "b" = some nm := by
  constructor
  · intro h
    have h1 : padsOfComponent libDb2W compAW.pcb_component_id = [padA1W] := rfl
    have h2 : padsOfComponent libDb2W compBW.pcb_component_id = [padRotBW] := rfl
    have h3 : holesOfComponent libDb2W compAW.pcb_component_id = [] := rfl
    have h4 : holesOfComponent libDb2W compBW.pcb_component_id = [] := rfl
    rw [GeomIdentical, h1, h2, h3, h4] at h
    simp [exactGeoms, exactPadGeom, padA1W, padRotBW] at h
  · have hinv := addLibraryState_inv libDb2W (by decide)
    obtain ⟨n1, hs1, hm1⟩ := hinv.comp_assigned compAW (by decide) (by decide)
    obtain ⟨n2, hs2, hm2⟩ := hinv.comp_assigned compBW (by decide) (by decide)
    have hsig : componentSig libDb2W compBW = componentSig libDb2W compAW := rfl
    rw [hsig, hs1] at hs2
    refine ⟨n1, hm1, ?_⟩
    rw [Option.some_inj.mp hs2]
    exact hm2

/-! Driver termination (claim C9). -/

/-- A stage body that, whenever it returns at all, reports `finished`. -/
def OneShot (body : StageBody) : Prop :=
  ∀ ctx ctx2 fin, body ctx = .ok (ctx2, fin) → fin = true

theorem initializeDsnStep_oneShot : OneShot initializeDsnStep := by
  intro ctx ctx2 fin h
  simp only [initializeDsnStep] at h
  simp only [Except.ok.injEq, Prod.mk.injEq] at h
  exact h.2.symm

theorem addStructureStep_oneShot : OneShot addStructureStep := by
  intro ctx ctx2 fin h
  simp only [addStructureStep] at h
  split at h
  · exact Except.noConfusion h
  · split at h
    · exact Except.noConfusion h
    · split at h
      · exact Except.noConfusion h
      · split at h
        · exact Except.noConfusion h
        · simp only [Except.ok.injEq, Prod.mk.injEq] at h
          exact h.2.symm

theorem addLibraryStep_oneShot : OneShot addLibraryStep := by
  intro ctx ctx2 fin h
  simp only [addLibraryStep] at h
  split at h
  · exact Except.noConfusion h
  · split at h
    · exact Except.noConfusion h
    · split at h
      · exact Except.noConfusion h
      · simp only [Except.ok.injEq, Prod.mk.injEq] at h
        exact h.2.symm

theorem addPlacementStep_oneShot : OneShot addPlacementStep := by
  intro ctx ctx2 fin h
  simp only [addPlacementStep] at h
  split at h
  · exact Except.noConfusion h
  · split at h
    · exact Except.noConfusion h
    · split at h
      · exact Except.noConfusion h
      · split at h
        · exact Except.noConfusion h
        · simp only [Except.ok.injEq, Prod.mk.injEq] at h
          exact h.2.symm

theorem addNetworkStep_oneShot : OneShot addNetworkStep := by
  intro ctx ctx2 fin h
  simp only [addNetworkStep] at h
  split at h
  · exact Except.noConfusion h
  · split at h
    · exact Except.noConfusion h
    · simp only [Except.ok.injEq, Prod.mk.injEq] at h
      exact h.2.symm

theorem pipelineBodies_oneShot : ∀ body ∈ pipelineBodies, OneShot body := by
  intro body hb
  simp only [pipelineBodies, List.mem_cons, List.not_mem_nil, or_false] at hb
  rcases hb with rfl | rfl | rfl | rfl | rfl
  · exact initializeDsnStep_oneShot
  · exact addStructureStep_oneShot
  · exact addLibraryStep_oneShot
  · exact addPlacementStep_oneShot
  · exact addNetworkStep_oneShot

theorem runFuel_ok_finished (bodies : List StageBody) :
    ∀ (fuel : ℕ) (d d2 : DriverState),
      runUntilFinishedFuel bodies fuel d = some (.ok d2) → d2.finished = true := by
  intro fuel
  induction fuel with
  | zero =>
    intro d d2 h
    simp [runUntilFinishedFuel] at h
  | succ n ih =>
    intro d d2 h
    rw [runUntilFinishedFuel] at h
    by_cases hf : d.finished = true
    · rw [if_pos hf] at h
      simp only [Option.some.injEq, Except.ok.injEq] at h
      rw [← h]
      exact hf
    · rw [if_neg hf] at h
      cases hstep : driverStep bodies d with
      | error e =>
        rw [hstep] at h
        simp at h
      | ok d3 =>
        rw [hstep] at h
        exact ih d3 d2 h

theorem runFuel_isSome (bodies : List StageBody)
    (hone : ∀ b ∈ bodies, OneShot b) :
    ∀ (fuel : ℕ) (d : DriverState),
      bodies.length = d.stages.length →
      bodies.length - d.currentStageIndex + 2 ≤ fuel →
      (runUntilFinishedFuel bodies fuel d).isSome = true := by
  intro fuel
  induction fuel with
  | zero =>
    intro d _ hf
    omega
  | succ n ih =>
    intro d hlen hf
    rw [runUntilFinishedFuel]
    by_cases hfin : d.finished = true
    · rw [if_pos hfin]
      rfl
    · rw [if_neg hfin]
      cases hget : bodies.get? d.currentStageIndex with
      | none =>
        have hstep : driverStep bodies d = .ok { d with finished := true } := by
          rw [driverStep, hget]
        rw [hstep]
        show (runUntilFinishedFuel bodies n { d with finished := true }).isSome = true
        cases n with
        | zero => omega
        | succ m =>
          rw [runUntilFinishedFuel]
          simp
      | some body =>
        have hidx : d.currentStageIndex < bodies.length := by
          by_contra hge
          rw [List.get?_eq_none.mpr (by omega)] at hget
          exact Option.noConfusion hget
        have hsidx : d.currentStageIndex < d.stages.length := by omega
        obtain ⟨s, hsget⟩ : ∃ s, d.stages.get? d.currentStageIndex = some s :=
          ⟨d.stages.get ⟨d.currentStageIndex, hsidx⟩, List.get?_eq_get hsidx⟩
        have hstep : driverStep bodies d
            = match converterStageStep body d.ctx s with
              | .error e => .error e
              | .ok (ctx2, s2) =>
                .ok { ctx := ctx2
                      stages := d.stages.set d.currentStageIndex s2
                      currentStageIndex :=
                        if s2.finished then d.currentStageIndex + 1 else d.currentStageIndex
                      finished := d.finished } := by
          rw [driverStep, hget, hsget]
        rw [hstep]
        rw [converterStageStep]
        by_cases hmax : s.iteration + 1 > MAX_ITERATIONS
        · rw [if_pos hmax]
          rfl
        · rw [if_neg hmax]
          cases hbody : body d.ctx with
          | error e => rfl
          | ok p =>
            obtain ⟨ctx2, fin2⟩ := p
            have hfin2 : fin2 = true :=
              hone body (List.get?_mem hget) d.ctx ctx2 fin2 hbody
            subst hfin2
            apply ih
            · rw [List.length_set]
              exact hlen
            · simp only [if_true]
              omega

/-- C9: every stage's `step()` increments its iteration counter before
delegating and faults once the counter exceeds the ceiling of 1000; each of
the five pipeline stage bodies sets its finished flag whenever it returns;
consequently `runUntilFinished()` resolves (finishes or surfaces a stage
fault) within pipeline-length + 1 driver steps for every input, and a
non-faulting run ends with the driver finished. -/
theorem c9_step_ceiling_and_termination :
    (∀ (body : StageBody) (ctx : ConverterContext) (s : StageState),
      (MAX_ITERATIONS < s.iteration + 1 →
        converterStageStep body ctx s = .error "Max iterations reached")
      ∧ (s.iteration + 1 ≤ MAX_ITERATIONS →
          ∀ ctx2 s2, converterStageStep body ctx s = .ok (ctx2, s2) →
            s2.iteration = s.iteration + 1))
    ∧ (∀ body ∈ pipelineBodies, OneShot body)
    ∧ (∀ db : CircuitDb,
        (runUntilFinishedFuel pipelineBodies (pipelineBodies.length + 2)
          (initialConverter db)).isSome = true
        ∧ ∀ d2, runUntilFinishedFuel pipelineBodies (pipelineBodies.length + 2)
            (initialConverter db) = some (.ok d2) → d2.finished = true) := by
  refine ⟨?_, pipelineBodies_oneShot, ?_⟩
  · intro body ctx s
    constructor
    · intro hmax
      rw [converterStageStep, if_pos hmax]
    · intro hle ctx2 s2 h
      rw [converterStageStep, if_neg (by omega)] at h
      cases hbody : body ctx with
      | error e =>
        rw [hbody] at h
        exact Except.noConfusion h
      | ok p =>
        obtain ⟨ctx3, fin3⟩ := p
        rw [hbody] at h
        simp only [Except.ok.injEq, Prod.mk.injEq] at h
        rw [← h.2]
  · intro db
    constructor
    · apply runFuel_isSome pipelineBodies pipelineBodies_oneShot
      · simp [initialConverter]
      · simp [initialConverter]
    · exact runFuel_ok_finished pipelineBodies (pipelineBodies.length + 2) (initialConverter db)

def ctx0W : ConverterContext := (initialConverter emptyDbW).ctx

def dsnInitW : SpectraDsnM :=
  { designName := "circuit-design"
    parserInfo := some "circuit-json-to-dsn"
    resolution := some ("um", 10)
    unit := some "um"
    structureSection := some ⟨none, none, none⟩
    placement := some ⟨[]⟩
    library := some ⟨[], []⟩
    network := some ⟨[]⟩
    wiring := some () }

def ctx1W : ConverterContext := { ctx0W with spectraDsn := some dsnInitW }

theorem c9_step_ceiling_and_termination_witness :
    MAX_ITERATIONS < 1000 + 1
    ∧ converterStageStep initializeDsnStep ctx0W ⟨1000, false⟩
        = .error "Max iterations reached"
    ∧ (⟨1, true⟩ : StageState).iteration = 0 + 1
    ∧ (true : Bool) = true
    ∧ (runUntilFinishedFuel pipelineBodies (pipelineBodies.length + 2)
        (initialConverter emptyDbW)).isSome = true :=
  ⟨by decide,
   (c9_step_ceiling_and_termination.1 initializeDsnStep ctx0W ⟨1000, false⟩).1 (by decide),
   (c9_step_ceiling_and_termination.1 initializeDsnStep ctx0W ⟨0, false⟩).2 (by decide)
     ctx1W ⟨1, true⟩ rfl,
   c9_step_ceiling_and_termination.2.1 initializeDsnStep (List.mem_cons_self _ _)
     ctx0W ctx1W true rfl,
   (c9_step_ceiling_and_termination.2.2 emptyDbW).1⟩
